import Mathlib

/-!
Shallow embedding of the identity and ledger reconciliation engine of the
ww_clan bot, translated from src/services/db_manager.py,
src/services/identity_service.py, src/services/maintenance_service.py,
src/services/mission_service.py, src/services/rewards_repository.py,
src/reward_service.py and the legacy copies kept in src/bot.py.

Modelling conventions:
* MongoDB collections are lists of documents in insertion order; find_one
  returns the first document satisfying the filter, update_one with upsert
  modifies the first match or appends a fresh document, delete_one removes
  the first match.
* Wall-clock timestamps (processed_at, created_at, set_at) carry no logical
  information for the verified properties and are omitted from the state;
  the uuid4 suffix of mission event ids is modelled by a counter.
* Python falsy strings: None and the empty string behave alike in every
  truthiness test of this code, so an absent id is modelled as "".
* A document field that may be absent and is always read with a default
  (reward_points via get(..., 0), achievements via get(..., []) or []) is
  modelled by the default value itself.
-/

namespace WWClan

/-- Python str.strip for the ASCII inputs of this code base (structural
implementation of String.trim so that concrete instances reduce). -/
def pyStrip (s : String) : String :=
  String.mk (((s.data.dropWhile Char.isWhitespace).reverse.dropWhile
    Char.isWhitespace).reverse)

/-- Python str.lower for the ASCII inputs of this code base (structural
implementation of String.toLower). -/
def pyLower (s : String) : String := String.mk (s.data.map Char.toLower)

/-- Python str.capitalize: first character upper-cased, the rest lower-cased. -/
def pyCapitalize (s : String) : String :=
  match s.data with
  | [] => ""
  | c :: cs => String.mk (c.toUpper :: cs.map Char.toLower)

/-- Python truthiness of an optional string (None and "" are falsy). -/
def optTruthy : Option String → Bool
  | none => false
  | some s => s != ""

/-- Python `x or dflt` where x is an optional string value. -/
def orElseStr (x : Option String) (dflt : String) : String :=
  match x with
  | some s => if s = "" then dflt else s
  | none => dflt

/-- MongoManager._normalize_currency: alias table plus str.capitalize fallback. -/
def normalize_currency (currency : String) : String :=
  let l := pyLower currency
  if l = "gold" then "Oro"
  else if l = "oro" then "Oro"
  else if l = "gem" then "Gem"
  else if l = "gems" then "Gem"
  else if l = "gemme" then "Gem"
  else pyCapitalize currency

/-- update_one semantics: rewrite the first list element satisfying the filter. -/
def updateFirst {α : Type} (p : α → Bool) (f : α → α) : List α → List α
  | [] => []
  | x :: xs => if p x then f x :: xs else x :: updateFirst p f xs

/-- delete_one semantics: drop the first list element satisfying the filter. -/
def removeFirst {α : Type} (p : α → Bool) : List α → List α
  | [] => []
  | x :: xs => if p x then xs else x :: removeFirst p xs

/-- Reading a donation map field with a default of 0 (doc.get semantics). -/
def donGet (m : List (String × Int)) (c : String) : Int :=
  match m.find? (fun p => p.1 == c) with
  | some p => p.2
  | none => 0

/-- Mongo $inc on a donation-map field: add to the entry or create it. -/
def donInc : List (String × Int) → String → Int → List (String × Int)
  | [], c, amt => [(c, amt)]
  | (k, v) :: rest, c, amt =>
    if k = c then (k, v + amt) :: rest else (k, v) :: donInc rest c amt

/-- One document of the users collection (Balance/Economy Record). -/
structure UserDoc where
  oid : Nat
  username : String
  donazioni : List (String × Int)
  reward_points : Int
  achievements : List String
deriving DecidableEq, Repr

/-- One raw ledger feed record as consumed by process_ledger. -/
structure RawRecord where
  rid : String
  rtype : String
  playerUsername : Option String
  gold : Int
  gems : Int
deriving DecidableEq, Repr

/-- One document of the processed_ledger idempotency-marker collection. -/
structure LedgerMarker where
  mid : String
  raw : RawRecord
deriving DecidableEq, Repr

/-- One document of the donation_history audit collection. -/
structure DonationEntry where
  did : String
  username : String
  gold : Int
  gems : Int
  original_username : Option String
  identity_match : Option String
  telegram_id : Option Int
  raw : RawRecord
deriving DecidableEq, Repr

/-- One entry of a username history array (username_lower can be stored as
null when a falsy username is recorded). -/
structure HistEntry where
  username : String
  username_lower : Option String
deriving DecidableEq, Repr

/-- A verification payload (timestamps omitted, see module comment). -/
structure Verification where
  method : String
  code : Option String
deriving DecidableEq, Repr

/-- One document of the player_profiles collection. -/
structure Profile where
  telegram_id : Int
  telegram_username : Option String
  telegram_username_lower : Option String
  full_name : Option String
  game_username : Option String
  game_username_lower : Option String
  game_username_history : List HistEntry
  telegram_username_history : List HistEntry
  wolvesville_id : Option String
  verification : Option Verification
  verification_history : List Verification
deriving DecidableEq, Repr

/-- One document of the rewards_history collection. -/
structure RewardEvent where
  username : String
  event_type : String
  point_type : Option String
  points : Int
  amount : Option Int
  achievement_code : Option String
  metadata_achievement : Option String
  running_total : Int
deriving DecidableEq, Repr

/-- One document of the missions_history collection. -/
structure MissionEvent where
  event_id : String
  mission_id : Option String
  mission_type : String
  participant_usernames : List String
  cost_per_participant : Int
  total_cost : Int
  outcome : String
  source : String
deriving DecidableEq, Repr

/-- The whole document store. -/
structure DB where
  users : List UserDoc
  profiles : List Profile
  processed_ledger : List LedgerMarker
  donation_history : List DonationEntry
  missions_history : List MissionEvent
  processed_active_missions : List (String × Option String)
  rewards_history : List RewardEvent
  next_oid : Nat
  next_nonce : Nat
deriving DecidableEq, Repr

/-- The empty store. -/
def emptyDB : DB :=
  { users := [], profiles := [], processed_ledger := [], donation_history := [],
    missions_history := [], processed_active_missions := [], rewards_history := [],
    next_oid := 0, next_nonce := 0 }

/-- find_one on the users collection by exact username. -/
def findUser (users : List UserDoc) (u : String) : Option UserDoc :=
  users.find? (fun d => d.username == u)

/-- MongoManager.update_user_balance: $inc on donazioni.(normalized), upsert. -/
def update_user_balance (db : DB) (username currency : String) (amount : Int) : DB :=
  let normalized := normalize_currency currency
  match findUser db.users username with
  | some _ =>
    let users' := updateFirst (fun x => x.username == username)
      (fun x => { x with donazioni := donInc x.donazioni normalized amount }) db.users
    { db with users := users' }
  | none =>
    let doc : UserDoc :=
      { oid := db.next_oid, username := username,
        donazioni := donInc [] normalized amount, reward_points := 0, achievements := [] }
    { db with users := db.users ++ [doc], next_oid := db.next_oid + 1 }

/-- MongoManager.has_processed_ledger. -/
def has_processed_ledger (db : DB) (record_id : String) : Bool :=
  if record_id = "" then false
  else (db.processed_ledger.find? (fun m => m.mid == record_id)).isSome

/-- MongoManager.mark_ledger_processed: replace_one with upsert keyed by id. -/
def mark_ledger_processed (db : DB) (record_id : String) (raw : RawRecord) : DB :=
  if record_id = "" then db
  else if (db.processed_ledger.find? (fun m => m.mid == record_id)).isSome then
    { db with processed_ledger :=
        updateFirst (fun m => m.mid == record_id) (fun _ => ⟨record_id, raw⟩) db.processed_ledger }
  else
    { db with processed_ledger := db.processed_ledger ++ [⟨record_id, raw⟩] }

/-- MongoManager.log_donation: replace_one with upsert keyed by record id. -/
def log_donation (db : DB) (record_id username : String) (gold gems : Int)
    (original_username : Option String) (match_source : Option String)
    (telegram_id : Option Int) (raw : RawRecord) : DB :=
  if record_id = "" ∨ username = "" then db
  else
    let entry : DonationEntry :=
      { did := record_id, username := username, gold := gold, gems := gems,
        original_username := if optTruthy original_username then original_username else none,
        identity_match := if optTruthy match_source then match_source else none,
        telegram_id := telegram_id, raw := raw }
    if (db.donation_history.find? (fun e => e.did == record_id)).isSome then
      { db with donation_history :=
          updateFirst (fun e => e.did == record_id) (fun _ => entry) db.donation_history }
    else
      { db with donation_history := db.donation_history ++ [entry] }

/-- Result of MongoManager.resolve_profile_by_game_alias. -/
structure AliasResolution where
  profile : Profile
  resolved_username : String
  matchSource : String
deriving DecidableEq, Repr

/-- MongoManager.resolve_profile_by_game_alias: current-username index first,
then the alias-history index by stored username_lower, then the
case-insensitive regex fallback on the stored original-case alias. -/
def resolve_profile_by_game_alias (profiles : List Profile) (game_username : String) :
    Option AliasResolution :=
  if game_username = "" then none
  else
    let normalized := pyStrip game_username
    if normalized = "" then none
    else
      let lowerU := pyLower normalized
      match profiles.find? (fun p => p.game_username_lower == some lowerU) with
      | some p => some ⟨p, orElseStr p.game_username normalized, "current"⟩
      | none =>
        match profiles.find?
            (fun p => p.game_username_history.any (fun h => h.username_lower == some lowerU)) with
        | some p => some ⟨p, orElseStr p.game_username normalized, "history"⟩
        | none =>
          match profiles.find?
              (fun p => p.game_username_history.any (fun h => pyLower h.username == lowerU)) with
          | some p => some ⟨p, orElseStr p.game_username normalized, "history"⟩
          | none => none

/-- The identity result of IdentityService.resolve_member_identity
(profile snapshot reduced to the profile itself). -/
structure Identity where
  original_username : Option String
  resolved_username : Option String
  telegram_id : Option Int
  telegram_username : Option String
  matchSource : Option String
  profileFound : Option Profile
deriving DecidableEq, Repr

/-- IdentityService.resolve_member_identity. -/
def resolve_member_identity (profiles : List Profile) (username : Option String) : Identity :=
  let raw := username.getD ""
  let cleaned := pyStrip raw
  let base : Identity :=
    { original_username := if cleaned = "" then none else some cleaned,
      resolved_username := if cleaned = "" then none else some cleaned,
      telegram_id := none, telegram_username := none,
      matchSource := none, profileFound := none }
  if cleaned = "" then base
  else
    match resolve_profile_by_game_alias profiles cleaned with
    | none => base
    | some r =>
      { base with
        resolved_username := some (if r.resolved_username = "" then cleaned else r.resolved_username),
        matchSource := some r.matchSource,
        telegram_id := some r.profile.telegram_id,
        telegram_username := r.profile.telegram_username,
        profileFound := some r.profile }

/-- One loop iteration of MaintenanceService.process_ledger (the service
wired to the live scheduler in src/bot_app/scheduler.py). -/
def process_ledger_record (db : DB) (record : RawRecord) : DB :=
  if record.rtype ≠ "DONATE" then db
  else if has_processed_ledger db record.rid then db
  else
    let username := record.playerUsername
    let gold_amount := record.gold
    let gems_amount := record.gems
    if optTruthy username ∧ (gold_amount > 0 ∨ gems_amount > 0) then
      let identity := resolve_member_identity db.profiles username
      match identity.resolved_username with
      | none => mark_ledger_processed db record.rid record
      | some resolved =>
        let original := orElseStr identity.original_username (username.getD "")
        let db1 := if gold_amount > 0 then update_user_balance db resolved "Oro" gold_amount else db
        let db2 := if gems_amount > 0 then update_user_balance db1 resolved "Gem" gems_amount else db1
        let db3 := log_donation db2 record.rid resolved gold_amount gems_amount
          (some original) identity.matchSource identity.telegram_id record
        mark_ledger_processed db3 record.rid record
    else
      mark_ledger_processed db record.rid record

/-- MaintenanceService.process_ledger over a fetched batch. -/
def process_ledger (db : DB) (ledger_data : List RawRecord) : DB :=
  ledger_data.foldl process_ledger_record db

/-- One loop iteration of the legacy process_ledger in src/bot.py: identical
to the service version except that an unresolvable username is skipped with
continue, without writing the idempotency marker. -/
def process_ledger_record_legacy (db : DB) (record : RawRecord) : DB :=
  if record.rtype ≠ "DONATE" then db
  else if has_processed_ledger db record.rid then db
  else
    let username := record.playerUsername
    let gold_amount := record.gold
    let gems_amount := record.gems
    if optTruthy username ∧ (gold_amount > 0 ∨ gems_amount > 0) then
      let identity := resolve_member_identity db.profiles username
      match identity.resolved_username with
      | none => db
      | some resolved =>
        let original := orElseStr identity.original_username (username.getD "")
        let db1 := if gold_amount > 0 then update_user_balance db resolved "Oro" gold_amount else db
        let db2 := if gems_amount > 0 then update_user_balance db1 resolved "Gem" gems_amount else db1
        let db3 := log_donation db2 record.rid resolved gold_amount gems_amount
          (some original) identity.matchSource identity.telegram_id record
        mark_ledger_processed db3 record.rid record
    else
      mark_ledger_processed db record.rid record

/-- The legacy src/bot.py process_ledger over a fetched batch. -/
def process_ledger_legacy (db : DB) (ledger_data : List RawRecord) : DB :=
  ledger_data.foldl process_ledger_record_legacy db

/-- Status field of the MongoManager.migrate_user_record result. -/
inductive MigrateStatus where
  | unchanged
  | missing_old
  | renamed
  | merged
deriving DecidableEq, Repr

/-- MongoManager._merge_donation_maps: sum the numeric values per currency,
first map first, preserving dict insertion order. -/
def merge_donation_maps (maps : List (List (String × Int))) : List (String × Int) :=
  maps.foldl (fun merged m => m.foldl (fun acc kv => donInc acc kv.1 kv.2) merged) []

/-- Add-if-absent on an achievement list (Mongo $addToSet). -/
def achAdd (s : List String) (a : String) : List String :=
  if a ∈ s then s else s ++ [a]

/-- Insertion into a lexicographically sorted string list. -/
def insertSortedStr (a : String) : List String → List String
  | [] => [a]
  | b :: rest => if a ≤ b then a :: b :: rest else b :: insertSortedStr a rest

/-- Python sorted(...) on strings. -/
def sortStrings (l : List String) : List String := l.foldr insertSortedStr []

/-- MongoManager.migrate_user_record: rename the user document in place when
no target record exists, otherwise merge both records into the target
(counters summed, reward points summed, achievement sets unioned with falsy
entries dropped, sorted) and delete the old document. -/
def migrate_user_record (users : List UserDoc) (old_username new_username : String) :
    MigrateStatus × List UserDoc :=
  if old_username = "" ∨ new_username = "" ∨ old_username = new_username then
    (.unchanged, users)
  else
    match findUser users old_username with
    | none => (.missing_old, users)
    | some old_doc =>
      match findUser users new_username with
      | none =>
        let users' := updateFirst (fun d => d.oid == old_doc.oid)
          (fun d => { d with username := new_username }) users
        (.renamed, users')
      | some new_doc =>
        let merged_donations := merge_donation_maps [old_doc.donazioni, new_doc.donazioni]
        let merged_reward_points := old_doc.reward_points + new_doc.reward_points
        let achievements :=
          sortStrings (((old_doc.achievements ++ new_doc.achievements).filter
            (fun a => a != "")).foldl achAdd [])
        let users1 := updateFirst (fun d => d.oid == new_doc.oid)
          (fun d =>
            { d with donazioni := merged_donations,
                     reward_points := merged_reward_points,
                     achievements := if achievements ≠ [] then achievements else d.achievements })
          users
        (.merged, removeFirst (fun d => d.oid == old_doc.oid) users1)

/-- Result of MongoManager.link_player_profile. -/
inductive LinkResult where
  | conflict (reason : String) (conflicting : Profile)
  | done (created : Bool) (game_username_changed : Bool)
      (previous_game_username : Option String) (telegram_username_changed : Bool)
      (previous_telegram_username : Option String) (migrate_result : Option MigrateStatus)
      (profile : Option Profile)
deriving DecidableEq, Repr

/-- The profile upsert and migration tail of MongoManager.link_player_profile,
reached after both conflict checks passed. -/
def link_apply (db : DB) (telegram_id : Int) (normalized_username normalized_lower : String)
    (telegram_username : Option String) (normalized_telegram_lower : Option String)
    (clean_full_name : Option String) (wolvesville_id : Option String) (verified : Bool)
    (verification_code : Option String) (verification_method : Option String)
    (existing_profile : Option Profile) : Except String (LinkResult × DB) :=
  let verification_payload : Option Verification :=
    if verified then
      some { method := orElseStr verification_method "manual",
             code := if optTruthy verification_code then verification_code else none }
    else none
  match existing_profile with
  | none =>
    let newP : Profile :=
      { telegram_id := telegram_id,
        telegram_username := telegram_username,
        telegram_username_lower := normalized_telegram_lower,
        full_name := if optTruthy clean_full_name then clean_full_name else none,
        game_username := some normalized_username,
        game_username_lower := some normalized_lower,
        game_username_history := [⟨normalized_username, some normalized_lower⟩],
        telegram_username_history :=
          if optTruthy telegram_username then
            [⟨telegram_username.getD "", normalized_telegram_lower⟩]
          else [],
        wolvesville_id := if optTruthy wolvesville_id then wolvesville_id else none,
        verification := verification_payload,
        verification_history :=
          match verification_payload with
          | some v => [v]
          | none => [] }
    let profiles' := db.profiles ++ [newP]
    let final_profile := profiles'.find? (fun p => p.telegram_id == telegram_id)
    .ok (.done true false none false none none final_profile,
      { db with profiles := profiles' })
  | some P =>
    let game_changed : Bool := some normalized_username != P.game_username
    let prev_game : Option String := if game_changed then P.game_username else none
    let tg_changed : Bool :=
      match telegram_username with
      | none => false
      | some t => some t != P.telegram_username
    let prev_tg : Option String := if tg_changed then P.telegram_username else none
    let newP : Profile :=
      { P with
        telegram_id := telegram_id,
        game_username := some normalized_username,
        game_username_lower := some normalized_lower,
        telegram_username :=
          if telegram_username ≠ none then telegram_username else P.telegram_username,
        telegram_username_lower :=
          if telegram_username ≠ none then normalized_telegram_lower
          else P.telegram_username_lower,
        full_name := if optTruthy clean_full_name then clean_full_name else P.full_name,
        wolvesville_id :=
          if optTruthy wolvesville_id then wolvesville_id else P.wolvesville_id,
        game_username_history := P.game_username_history ++
          (if game_changed then [⟨normalized_username, some normalized_lower⟩] else []),
        telegram_username_history := P.telegram_username_history ++
          (if tg_changed then [⟨telegram_username.getD "", normalized_telegram_lower⟩] else []),
        verification :=
          match verification_payload with
          | some v => some v
          | none => P.verification,
        verification_history := P.verification_history ++
          (match verification_payload with
           | some v => [v]
           | none => []) }
    let profiles' := updateFirst (fun p => p.telegram_id == telegram_id) (fun _ => newP) db.profiles
    let final_profile := profiles'.find? (fun p => p.telegram_id == telegram_id)
    if game_changed ∧ optTruthy prev_game then
      let migrated := migrate_user_record db.users (prev_game.getD "") normalized_username
      .ok (.done false game_changed prev_game tg_changed prev_tg (some migrated.1) final_profile,
        { db with profiles := profiles', users := migrated.2 })
    else
      .ok (.done false game_changed prev_game tg_changed prev_tg none final_profile,
        { db with profiles := profiles' })

/-- The wolvesville_id conflict check of MongoManager.link_player_profile,
reached after the game-username conflict check passed. -/
def link_after_username_check (db : DB) (telegram_id : Int)
    (normalized_username normalized_lower : String) (telegram_username : Option String)
    (normalized_telegram_lower : Option String) (clean_full_name : Option String)
    (wolvesville_id : Option String) (verified : Bool) (verification_code : Option String)
    (verification_method : Option String) (existing_profile : Option Profile) :
    Except String (LinkResult × DB) :=
  if optTruthy wolvesville_id then
    match db.profiles.find? (fun p => p.wolvesville_id == wolvesville_id) with
    | some q =>
      if q.telegram_id ≠ telegram_id then .ok (.conflict "wolvesville_id" q, db)
      else link_apply db telegram_id normalized_username normalized_lower telegram_username
        normalized_telegram_lower clean_full_name wolvesville_id verified verification_code
        verification_method existing_profile
    | none => link_apply db telegram_id normalized_username normalized_lower telegram_username
        normalized_telegram_lower clean_full_name wolvesville_id verified verification_code
        verification_method existing_profile
  else link_apply db telegram_id normalized_username normalized_lower telegram_username
    normalized_telegram_lower clean_full_name wolvesville_id verified verification_code
    verification_method existing_profile

/-- MongoManager.link_player_profile: conflict checks, then the upsert of the
profile document with change detection and history pushes, then the economy
record migration when the game username changed. Raises (Except.error) on an
empty game username like the Python ValueError. -/
def link_player_profile (db : DB) (telegram_id : Int) (game_username : String)
    (telegram_username : Option String) (full_name : Option String)
    (wolvesville_id : Option String) (verified : Bool)
    (verification_code : Option String) (verification_method : Option String) :
    Except String (LinkResult × DB) :=
  let normalized_username := pyStrip game_username
  if normalized_username = "" then .error "game_username richiesto"
  else
    let normalized_lower := pyLower normalized_username
    let clean_full_name : Option String :=
      match full_name with
      | some f => if f = "" then none else some (pyStrip f)
      | none => none
    let normalized_telegram_lower : Option String :=
      match telegram_username with
      | some t => if t = "" then none else some (pyLower t)
      | none => none
    let existing_profile := db.profiles.find? (fun p => p.telegram_id == telegram_id)
    let existing_by_username :=
      db.profiles.find? (fun p => p.game_username_lower == some normalized_lower)
    match existing_by_username with
    | some q =>
      if q.telegram_id ≠ telegram_id then .ok (.conflict "game_username" q, db)
      else link_after_username_check db telegram_id normalized_username normalized_lower
        telegram_username normalized_telegram_lower clean_full_name wolvesville_id
        verified verification_code verification_method existing_profile
    | none => link_after_username_check db telegram_id normalized_username normalized_lower
        telegram_username normalized_telegram_lower clean_full_name wolvesville_id
        verified verification_code verification_method existing_profile

/-- The gem-currency cost tier of MissionService (per participant, as a
function of the resolved participant count). -/
def gem_mission_cost (participant_count : Nat) : Int :=
  if participant_count > 7 then 140
  else if 5 ≤ participant_count ∧ participant_count ≤ 7 then 150
  else 0

/-- The participant-resolution loop shared by MissionService.process_mission
and process_active_mission_auto: resolve every raw username, keep the
identities with a usable resolved username, skip the rest. -/
def resolved_identities_of (profiles : List Profile) (participants : List String) :
    List Identity :=
  participants.filterMap (fun participant =>
    let identity := resolve_member_identity profiles (some participant)
    match identity.resolved_username with
    | none => none
    | some _ => some identity)

/-- MongoManager.log_mission_participation. The Python source declares the
parameter participants twice (an unmerged refactor that shadows the entry
dicts with the raw username list); we embed the textually later duplicate
block, which stores one entry per raw username. The uuid4 suffix of the
event id is modelled by the next_nonce counter. -/
def log_mission_participation (db : DB) (mission_id : Option String) (mission_type : String)
    (participant_entries : List String) (participants : List String)
    (cost_per_participant : Int) (outcome : String) (source : String) :
    Option String × DB :=
  if participant_entries = [] then (none, db)
  else if participants = [] then (none, db)
  else
    let event_id := orElseStr mission_id "mission" ++ "-" ++ toString db.next_nonce
    let ev : MissionEvent :=
      { event_id := event_id, mission_id := mission_id, mission_type := mission_type,
        participant_usernames := participants, cost_per_participant := cost_per_participant,
        total_cost := cost_per_participant * participants.length,
        outcome := outcome, source := source }
    (some event_id,
      { db with missions_history := db.missions_history ++ [ev],
                next_nonce := db.next_nonce + 1 })

/-- MissionService.process_mission: resolve the participants, compute the
per-participant cost from the resolved headcount, debit every resolved
participant and log the event. -/
def process_mission (db : DB) (participants : List String) (mission_type : String)
    (mission_id : Option String) (outcome : String) (source : String) :
    Option String × DB :=
  if participants = [] then (none, db)
  else
    let mt := if mission_type = "" then "Unknown" else mission_type
    let mtl := pyLower mt
    let resolved := resolved_identities_of db.profiles participants
    if resolved = [] then (none, db)
    else
      let participant_count := resolved.length
      let cost : Int :=
        if mtl = "gold" then 500
        else if mtl = "gem" then gem_mission_cost participant_count
        else 0
      let currency_key :=
        if mtl = "gold" then "Gold" else if mtl = "gem" then "Gem" else mt
      let db1 :=
        if cost ≠ 0 then
          resolved.foldl (fun acc identity =>
            update_user_balance acc (identity.resolved_username.getD "") currency_key (-cost)) db
        else db
      let entries :=
        (resolved.map (fun identity => pyStrip (identity.resolved_username.getD ""))).filter
          (fun u => u != "")
      log_mission_participation db1 mission_id mt entries participants cost outcome source

/-- The active-quest payload consumed by process_active_mission_auto. -/
structure ActiveQuest where
  qid : Option String
  purchasableWithGems : Bool
deriving DecidableEq, Repr

/-- One participant object of the active-quest payload. -/
structure ActiveParticipant where
  username : Option String
deriving DecidableEq, Repr

/-- The top-level active-quest response consumed by
process_active_mission_auto. -/
structure ActiveMissionData where
  quest : Option ActiveQuest
  tierStartTime : Option String
  participants : List ActiveParticipant
deriving DecidableEq, Repr

/-- MongoManager.has_processed_active_mission. -/
def has_processed_active_mission (db : DB) (mission_id : String) : Bool :=
  if mission_id = "" then false
  else (db.processed_active_missions.find? (fun m => m.1 == mission_id)).isSome

/-- MongoManager.mark_active_mission_processed (replace_one with upsert). -/
def mark_active_mission_processed (db : DB) (mission_id : String)
    (tier_start_time : Option String) : DB :=
  if mission_id = "" then db
  else if (db.processed_active_missions.find? (fun m => m.1 == mission_id)).isSome then
    let markers := updateFirst (fun m => m.1 == mission_id)
      (fun _ => (mission_id, tier_start_time)) db.processed_active_missions
    { db with processed_active_missions := markers }
  else
    let markers := db.processed_active_missions ++ [(mission_id, tier_start_time)]
    { db with processed_active_missions := markers }

/-- MissionService.process_active_mission_auto on an already fetched active
quest payload: idempotency check on the mission id, participant resolution,
tiered cost deduction and the final processed marker. -/
def process_active_mission_auto (db : DB) (active_data : ActiveMissionData) : DB :=
  match active_data.quest with
  | none => db
  | some quest =>
    let mission_id := quest.qid.getD ""
    let tier_start_time := active_data.tierStartTime.getD ""
    if mission_id = "" ∨ tier_start_time = "" then db
    else if has_processed_active_mission db mission_id then db
    else
      let raw_usernames := active_data.participants.filterMap (fun p =>
        match p.username with
        | some u => if u = "" then none else some u
        | none => none)
      if raw_usernames = [] then db
      else
        let resolved := resolved_identities_of db.profiles raw_usernames
        if resolved = [] then db
        else
          let participant_count := resolved.length
          let mission_type := if quest.purchasableWithGems then "Gem" else "Gold"
          let cost : Int :=
            if mission_type = "Gold" then 500 else gem_mission_cost participant_count
          let db1 :=
            if cost ≠ 0 then
              resolved.foldl (fun acc identity =>
                update_user_balance acc (identity.resolved_username.getD "") mission_type
                  (-cost)) db
            else db
          let entries :=
            (resolved.map (fun identity => pyStrip (identity.resolved_username.getD ""))).filter
              (fun u => u != "")
          let logged := log_mission_participation db1 (some mission_id) mission_type entries
            raw_usernames cost "auto_processed" "active_mission"
          mark_active_mission_processed logged.2 mission_id (some tier_start_time)

/-- One entry of RewardService.POINTS_CONFIG (the ratio multiplier is kept
exact as a rational; Python stores it as a float). -/
structure PointsConfig where
  mode : String
  per_amount : Int := 1000
  multiplier : Int := 1
  min_points : Int := 0
  points : Int := 0
  ratioValue : Rat := 1
  allow_override : Bool := false
  allow_negative : Bool := false
deriving DecidableEq, Repr

/-- RewardService.POINTS_CONFIG entry DONATION_ORO. -/
def DONATION_ORO_config : PointsConfig :=
  { mode := "donation", per_amount := 1000, multiplier := 1, min_points := 1 }

/-- RewardService.POINTS_CONFIG entry DONATION_GEM. -/
def DONATION_GEM_config : PointsConfig :=
  { mode := "donation", per_amount := 1000, multiplier := 2, min_points := 2 }

/-- RewardService._compute_points. Python floor division is Int.fdiv; the
ratio branch rounds a float with banker's rounding, modelled here with the
exact rational rounding (the claims under verification never hit ties). -/
def compute_points (config : PointsConfig) (amount : Int) : Int :=
  if config.mode = "donation" then
    if amount ≤ 0 then 0
    else
      let per_amount := max config.per_amount 1
      let units := Int.fdiv amount per_amount
      let computed := units * config.multiplier
      if computed ≤ 0 ∧ config.min_points > 0 then config.min_points
      else if config.min_points > 0 then max computed config.min_points
      else computed
  else if config.mode = "ratio" then
    round ((amount : Rat) * config.ratioValue)
  else
    if config.allow_override ∧ amount ≠ 0 then amount else config.points

/-- RewardsRepository.increment_points: no-op on a falsy username or a zero
delta, otherwise an atomic increment with upsert plus an appended history
event carrying the running total. (The Python update combines $inc and a
$setOnInsert on reward_points; the insert case is modelled additively.) -/
def increment_points (db : DB) (username : String) (points : Int) (point_type : String)
    (amount : Option Int) (metadata_achievement : Option String) : DB × Option Int :=
  if username = "" ∨ points = 0 then (db, none)
  else
    match findUser db.users username with
    | some d =>
      let running_total := d.reward_points + points
      let users' := updateFirst (fun x => x.username == username)
        (fun x => { x with reward_points := x.reward_points + points }) db.users
      let ev : RewardEvent :=
        { username := username, event_type := "points", point_type := some point_type,
          points := points, amount := amount, achievement_code := none,
          metadata_achievement := metadata_achievement, running_total := running_total }
      ({ db with users := users', rewards_history := db.rewards_history ++ [ev] },
        some running_total)
    | none =>
      let doc : UserDoc :=
        { oid := db.next_oid, username := username, donazioni := [],
          reward_points := points, achievements := [] }
      let ev : RewardEvent :=
        { username := username, event_type := "points", point_type := some point_type,
          points := points, amount := amount, achievement_code := none,
          metadata_achievement := metadata_achievement, running_total := points }
      ({ db with users := db.users ++ [doc], next_oid := db.next_oid + 1,
                 rewards_history := db.rewards_history ++ [ev] },
        some points)

/-- RewardsRepository.append_achievement: add-if-absent guarded write of one
achievement code plus an appended history event; returns whether the code
was newly appended. -/
def append_achievement (db : DB) (username achievement_code : String) : Bool × DB :=
  if username = "" ∨ achievement_code = "" then (false, db)
  else
    match findUser db.users username with
    | some d =>
      if achievement_code ∈ d.achievements then (false, db)
      else
        let users' := updateFirst (fun x => x.username == username)
          (fun x => { x with achievements := achAdd x.achievements achievement_code }) db.users
        let ev : RewardEvent :=
          { username := username, event_type := "achievement", point_type := none,
            points := 0, amount := none, achievement_code := some achievement_code,
            metadata_achievement := none, running_total := d.reward_points }
        (true, { db with users := users', rewards_history := db.rewards_history ++ [ev] })
    | none =>
      let doc : UserDoc :=
        { oid := db.next_oid, username := username, donazioni := [],
          reward_points := 0, achievements := [achievement_code] }
      let ev : RewardEvent :=
        { username := username, event_type := "achievement", point_type := none,
          points := 0, amount := none, achievement_code := some achievement_code,
          metadata_achievement := none, running_total := 0 }
      (true, { db with users := db.users ++ [doc], next_oid := db.next_oid + 1,
                       rewards_history := db.rewards_history ++ [ev] })

/-- Per-point-type aggregate of RewardsRepository.get_user_point_breakdown. -/
structure TypeStats where
  points : Int
  events : Int
  total_amount : Int
deriving DecidableEq, Repr

/-- RewardsRepository.get_user_point_breakdown: group the points-type history
events of the user by point type, summing points and amounts and counting
events; falsy point types are skipped when reading the aggregation. -/
def get_user_point_breakdown (db : DB) (username : String) : List (String × TypeStats) :=
  let evs := db.rewards_history.filter
    (fun e => e.username == username && e.event_type == "points")
  evs.foldl (fun acc e =>
    match e.point_type with
    | none => acc
    | some t =>
      if t = "" then acc
      else
        match acc.find? (fun p => p.1 == t) with
        | some _ =>
          updateFirst (fun p => p.1 == t)
            (fun p => (p.1, { points := p.2.points + e.points, events := p.2.events + 1,
                              total_amount := p.2.total_amount + e.amount.getD 0 })) acc
        | none =>
          acc ++ [(t, { points := e.points, events := 1,
                        total_amount := e.amount.getD 0 })]) []

/-- The metrics snapshot assembled by RewardService._build_metrics. -/
structure Metrics where
  reward_points : Int
  donations : List (String × Int)
  history_by_type : List (String × TypeStats)
  achievements : List String
deriving DecidableEq, Repr

/-- RewardService._build_metrics from a user snapshot and the history store. -/
def build_metrics (db : DB) (username : String) (snapshot : UserDoc) : Metrics :=
  { reward_points := snapshot.reward_points,
    donations := snapshot.donazioni,
    history_by_type := get_user_point_breakdown db username,
    achievements := snapshot.achievements }

/-- Lookup of a by-type aggregate. -/
def lookupStats (l : List (String × TypeStats)) (t : String) : Option TypeStats :=
  (l.find? (fun p => p.1 == t)).map (fun p => p.2)

/-- Structural split of a dotted path (String.splitOn specialised to the
dot separator so that concrete instances reduce). -/
def splitPathAux : List Char → List Char → List String
  | [], cur => [String.mk cur.reverse]
  | c :: cs, cur =>
    if c = '.' then String.mk cur.reverse :: splitPathAux cs []
    else splitPathAux cs (c :: cur)

/-- path.split on the dot separator. -/
def splitPath (s : String) : List String := splitPathAux s.data []

/-- RewardService._extract_metric: the dotted-path walk over the metrics
dictionary, restricted to the numeric leaves the metrics layout exposes. -/
def extract_metric (metrics : Metrics) (path : String) : Option Int :=
  match splitPath path with
  | ["reward_points"] => some metrics.reward_points
  | ["donations", c] => (metrics.donations.find? (fun p => p.1 == c)).map (fun p => p.2)
  | ["history", "by_type", t, "points"] => (lookupStats metrics.history_by_type t).map (fun s => s.points)
  | ["history", "by_type", t, "events"] => (lookupStats metrics.history_by_type t).map (fun s => s.events)
  | ["history", "by_type", t, "total_amount"] => (lookupStats metrics.history_by_type t).map (fun s => s.total_amount)
  | _ => none

/-- A criteria expression of RewardService.ACHIEVEMENTS (the set-membership
form of _evaluate_criteria is not used by the achievement table). -/
inductive Criteria where
  | allOf (cs : List Criteria)
  | anyOf (cs : List Criteria)
  | compare (metric : String) (op : String) (bound : Int)

mutual

/-- RewardService._evaluate_criteria: all/any composition over leaf
comparisons; a missing metric is False, an unknown operator falls back to
the truthiness of the metric value. -/
def evaluate_criteria : Criteria → Metrics → Bool
  | .allOf cs, m => evaluate_all cs m
  | .anyOf cs, m => evaluate_any cs m
  | .compare metric op bound, m =>
    match extract_metric m metric with
    | none => false
    | some v =>
      if op = "gte" then decide (bound ≤ v)
      else if op = "gt" then decide (bound < v)
      else if op = "lte" then decide (v ≤ bound)
      else if op = "lt" then decide (v < bound)
      else if op = "eq" then decide (v = bound)
      else decide (v ≠ 0)

/-- The all-composition of _evaluate_criteria. -/
def evaluate_all : List Criteria → Metrics → Bool
  | [], _ => true
  | c :: cs, m => evaluate_criteria c m && evaluate_all cs m

/-- The any-composition of _evaluate_criteria. -/
def evaluate_any : List Criteria → Metrics → Bool
  | [], _ => false
  | c :: cs, m => evaluate_criteria c m || evaluate_any cs m

end

/-- One entry of RewardService.ACHIEVEMENTS. -/
structure AchievementDef where
  code : String
  points_bonus : Int
  criteria : Criteria

/-- RewardService.ACHIEVEMENTS (codes, bonuses and criteria; names, icons
and descriptions carry no logic). -/
def ACHIEVEMENTS : List AchievementDef :=
  [ { code := "FIRST_DONATION", points_bonus := 10,
      criteria := .anyOf
        [ .compare "donations.Oro" "gte" 1,
          .compare "donations.Gem" "gte" 1,
          .compare "history.by_type.DONATION_ORO.events" "gte" 1,
          .compare "history.by_type.DONATION_GEM.events" "gte" 1 ] },
    { code := "BIG_DONOR", points_bonus := 25,
      criteria := .anyOf
        [ .compare "donations.Oro" "gte" 50000,
          .compare "donations.Gem" "gte" 20000 ] },
    { code := "MISSION_VETERAN", points_bonus := 30,
      criteria := .compare "history.by_type.MISSION_PARTICIPATION.events" "gte" 10 },
    { code := "CLAN_LEGEND", points_bonus := 50,
      criteria := .compare "reward_points" "gte" 1000 },
    { code := "SUPPORT_SPECIALIST", points_bonus := 15,
      criteria := .anyOf
        [ .compare "history.by_type.MISSION_SUPPORT.events" "gte" 5,
          .compare "history.by_type.MISSION_SUPPORT.points" "gte" 25 ] },
    { code := "DAILY_GRINDER", points_bonus := 10,
      criteria := .compare "history.by_type.DAILY_LOGIN.events" "gte" 7 },
    { code := "RESOURCE_TYCOON", points_bonus := 40,
      criteria := .allOf
        [ .compare "history.by_type.DONATION_ORO.total_amount" "gte" 100000,
          .compare "history.by_type.DONATION_GEM.total_amount" "gte" 5000 ] } ]

/-- The achievement loop of RewardService.check_achievements: an already
held code is skipped, otherwise the criteria are evaluated on the metrics
snapshot taken at entry; a successful add-if-absent write appends the code
to the running set and grants the fixed bonus through increment_points. -/
def check_loop (u : String) (metrics : Metrics) :
    List AchievementDef → DB → List String → List String × DB
  | [], db, _ => ([], db)
  | defn :: rest, db, current =>
    if defn.code ∈ current then check_loop u metrics rest db current
    else if evaluate_criteria defn.criteria metrics then
      let app := append_achievement db u defn.code
      if app.1 then
        let db2 :=
          if defn.points_bonus ≠ 0 then
            (increment_points app.2 u defn.points_bonus "ACHIEVEMENT_BONUS" (some 0)
              (some defn.code)).1
          else app.2
        let tail := check_loop u metrics rest db2 (current ++ [defn.code])
        (defn.code :: tail.1, tail.2)
      else check_loop u metrics rest app.2 current
    else check_loop u metrics rest db current

/-- RewardService.check_achievements with the snapshot fetched from the
store (the notification tail performs no storage writes and is omitted). -/
def check_achievements (db : DB) (username : String) : List String × DB :=
  if username = "" then ([], db)
  else
    match findUser db.users username with
    | none => ([], db)
    | some snapshot =>
      let metrics := build_metrics db username snapshot
      check_loop username metrics ACHIEVEMENTS db snapshot.achievements

/-- n successive invocations of check_achievements for one username. -/
def iterate_checks (username : String) : Nat → DB → DB
  | 0, db => db
  | n + 1, db => iterate_checks username n (check_achievements db username).2

/-- Number of achievement-unlock history rows for one user and code. -/
def ach_event_count (db : DB) (u code : String) : Nat :=
  (db.rewards_history.filter (fun e =>
    e.username == u && e.event_type == "achievement" &&
      e.achievement_code == some code)).length

/-- Number of achievement-bonus point grants for one user and code. -/
def bonus_event_count (db : DB) (u code : String) : Nat :=
  (db.rewards_history.filter (fun e =>
    e.username == u && e.event_type == "points" &&
      e.point_type == some "ACHIEVEMENT_BONUS" &&
      e.metadata_achievement == some code)).length

/-- Whether the user currently holds the achievement code. -/
def holds_achievement (db : DB) (u code : String) : Bool :=
  match findUser db.users u with
  | some d => code ∈ d.achievements
  | none => false

/-- Number of occurrences of the code in the user's achievement array. -/
def ach_occurrences (db : DB) (u code : String) : Nat :=
  match findUser db.users u with
  | some d => d.achievements.count code
  | none => 0

/-- The end-to-end donation record of the specification scenario. -/
def r1_donation : RawRecord :=
  { rid := "r1", rtype := "DONATE", playerUsername := some "Foo", gold := 2000, gems := 0 }

/-- A donation record whose source id is missing (falsy). -/
def noid_record : RawRecord :=
  { rid := "", rtype := "DONATE", playerUsername := some "u", gold := 5, gems := 0 }

/-- A donation record whose username strips to nothing and so never
resolves. -/
def blank_username_record : RawRecord :=
  { rid := "r9", rtype := "DONATE", playerUsername := some " ", gold := 5, gems := 0 }

/-- A donation record with a well-formed id, used to instantiate the
idempotence theorem. -/
def w1_donation : RawRecord :=
  { rid := "w1", rtype := "DONATE", playerUsername := some "Bar", gold := 300, gems := 2 }

/-- A profile whose current username is B and whose alias history holds A. -/
def alias_profile : Profile :=
  { telegram_id := 7, telegram_username := some "tg", telegram_username_lower := some "tg",
    full_name := none, game_username := some "B", game_username_lower := some "b",
    game_username_history := [⟨"A", some "a"⟩, ⟨"B", some "b"⟩],
    telegram_username_history := [], wolvesville_id := none,
    verification := none, verification_history := [] }

/-- A linked profile currently owning the game username Taken. -/
def conflict_profile : Profile :=
  { telegram_id := 42, telegram_username := none, telegram_username_lower := none,
    full_name := none, game_username := some "Taken", game_username_lower := some "taken",
    game_username_history := [⟨"Taken", some "taken"⟩],
    telegram_username_history := [], wolvesville_id := some "wid-42",
    verification := none, verification_history := [] }

/-- A store holding only conflict_profile. -/
def conflict_db : DB := { emptyDB with profiles := [conflict_profile] }

/-- The profile renamed by the merge scenario (currently A, linked to 1). -/
def rename_profile : Profile :=
  { telegram_id := 1, telegram_username := none, telegram_username_lower := none,
    full_name := none, game_username := some "A", game_username_lower := some "a",
    game_username_history := [⟨"A", some "a"⟩],
    telegram_username_history := [], wolvesville_id := none,
    verification := none, verification_history := [] }

/-- The economy record keyed by A in the merge scenario. -/
def record_A : UserDoc :=
  { oid := 0, username := "A", donazioni := [("Oro", 100)], reward_points := 5,
    achievements := ["X"] }

/-- The economy record keyed by B in the merge scenario. -/
def record_B : UserDoc :=
  { oid := 1, username := "B", donazioni := [("Oro", 10)], reward_points := 2,
    achievements := ["Y"] }

/-- The store of the merge scenario. -/
def merge_db : DB :=
  { emptyDB with users := [record_A, record_B], profiles := [rename_profile], next_oid := 2 }

/-- A store whose only user already holds FIRST_DONATION. -/
def held_achievement_db : DB :=
  { emptyDB with
      users := [{ oid := 0, username := "u", donazioni := [("Oro", 1)],
                  reward_points := 10, achievements := ["FIRST_DONATION"] }],
      next_oid := 1 }

/-- An active gem mission with three resolvable and two blank participants. -/
def active_fixture : ActiveMissionData :=
  { quest := some { qid := some "m1", purchasableWithGems := true },
    tierStartTime := some "t0",
    participants := [⟨some "Alice"⟩, ⟨some "Bob"⟩, ⟨some "Carol"⟩, ⟨some " "⟩, ⟨some "  "⟩] }

/-- The user store of the rename-without-merge scenario. -/
def rename_only_users : List UserDoc :=
  [{ oid := 3, username := "Carl", donazioni := [("Oro", 7)], reward_points := 4,
     achievements := ["Z"] },
   { oid := 5, username := "Dora", donazioni := [("Gem", 9)], reward_points := 1,
     achievements := [] }]

theorem processed_ledger_update_user_balance (db : DB) (u c : String) (a : Int) :
    (update_user_balance db u c a).processed_ledger = db.processed_ledger := by
  unfold update_user_balance
  cases findUser db.users u <;> simp

theorem processed_ledger_log_donation (db : DB) (rid u : String) (g ge : Int)
    (o m : Option String) (ti : Option Int) (raw : RawRecord) :
    (log_donation db rid u g ge o m ti raw).processed_ledger = db.processed_ledger := by
  unfold log_donation
  by_cases h : rid = "" ∨ u = ""
  · simp [h]
  · by_cases hf : (db.donation_history.find? (fun e => e.did == rid)).isSome = true <;>
      simp [h, hf]

theorem exists_updateFirst_of_exists {α : Type} (p q : α → Bool) (f : α → α) (l : List α)
    (hf : ∀ x, p x = true → q x = true → q (f x) = true)
    (h : ∃ x ∈ l, q x = true) : ∃ x ∈ updateFirst p f l, q x = true := by
  induction l with
  | nil => simp at h
  | cons a as ih =>
    rcases h with ⟨x, hx, hqx⟩
    rcases List.mem_cons.mp hx with rfl | hmem
    · by_cases hp : p x = true
      · exact ⟨f x, by simp [updateFirst, hp], hf x hp hqx⟩
      · refine ⟨x, ?_, hqx⟩
        simp [updateFirst, hp]
    · by_cases hp : p a = true
      · refine ⟨x, ?_, hqx⟩
        simp [updateFirst, hp, hmem]
      · rcases ih ⟨x, hmem, hqx⟩ with ⟨y, hy, hqy⟩
        refine ⟨y, ?_, hqy⟩
        simp [updateFirst, hp]
        exact Or.inr hy

theorem has_processed_mark (db : DB) (rid i : String) (raw : RawRecord)
    (h : has_processed_ledger db i = true) :
    has_processed_ledger (mark_ledger_processed db rid raw) i = true := by
  unfold has_processed_ledger at h ⊢
  by_cases hi : i = ""
  · simp [hi] at h
  · simp only [hi, if_neg, ite_false] at h ⊢
    unfold mark_ledger_processed
    by_cases hr : rid = ""
    · simpa [hr] using h
    · rw [if_neg hr]
      split
      · have hex := List.find?_isSome.mp h
        refine List.find?_isSome.mpr ?_
        refine exists_updateFirst_of_exists _ _ _ _ ?_ (by simpa using hex)
        intro x hpx hqx
        have h1 : x.mid = rid := by simpa using hpx
        have h2 : x.mid = i := by simpa using hqx
        simp [← h1, h2]
      · have hex := List.find?_isSome.mp h
        refine List.find?_isSome.mpr ?_
        rcases (by simpa using hex : ∃ x ∈ db.processed_ledger, (x.mid == i) = true) with
          ⟨x, hx, hqx⟩
        exact ⟨x, by simp [List.mem_append, hx], hqx⟩

theorem mark_sets_marker (db : DB) (rid : String) (raw : RawRecord) (h : rid ≠ "") :
    has_processed_ledger (mark_ledger_processed db rid raw) rid = true := by
  unfold has_processed_ledger mark_ledger_processed
  rw [if_neg h, if_neg h]
  split
  · next hfound =>
    refine List.find?_isSome.mpr ?_
    refine exists_updateFirst_of_exists _ _ _ _ ?_ ?_
    · intro x _ _
      simp
    · have hex := List.find?_isSome.mp hfound
      simpa using hex
  · refine List.find?_isSome.mpr ?_
    exact ⟨⟨rid, raw⟩, by simp [List.mem_append], by simp⟩

theorem has_processed_update_user_balance (db : DB) (u c : String) (a : Int) (i : String) :
    has_processed_ledger (update_user_balance db u c a) i = has_processed_ledger db i := by
  unfold has_processed_ledger
  rw [processed_ledger_update_user_balance]

theorem has_processed_log_donation (db : DB) (rid u : String) (g ge : Int)
    (o m : Option String) (ti : Option Int) (raw : RawRecord) (i : String) :
    has_processed_ledger (log_donation db rid u g ge o m ti raw) i =
      has_processed_ledger db i := by
  unfold has_processed_ledger
  rw [processed_ledger_log_donation]

theorem record_skip_of_not_donate (db : DB) (r : RawRecord) (ht : r.rtype ≠ "DONATE") :
    process_ledger_record db r = db := by
  simp [process_ledger_record, ht]

theorem record_noop_of_processed (db : DB) (r : RawRecord)
    (h : has_processed_ledger db r.rid = true) :
    process_ledger_record db r = db := by
  unfold process_ledger_record
  by_cases ht : r.rtype ≠ "DONATE" <;> simp [ht, h]

theorem has_processed_after_record (db : DB) (r : RawRecord) (i : String)
    (h : has_processed_ledger db i = true) :
    has_processed_ledger (process_ledger_record db r) i = true := by
  unfold process_ledger_record
  by_cases ht : r.rtype ≠ "DONATE"
  · simpa [ht] using h
  · by_cases hp : has_processed_ledger db r.rid = true
    · simpa [ht, hp] using h
    · simp only [ht, hp, ite_false, Bool.false_eq_true, if_neg, if_false]
      split
      · split
        · exact has_processed_mark db r.rid i r h
        · rw [has_processed_mark]
          rw [has_processed_log_donation]
          split <;> split <;>
            simp [has_processed_update_user_balance, h]
      · exact has_processed_mark db r.rid i r h

theorem record_marks (db : DB) (r : RawRecord) (hid : r.rid ≠ "")
    (ht : r.rtype = "DONATE") :
    has_processed_ledger (process_ledger_record db r) r.rid = true := by
  by_cases hp : has_processed_ledger db r.rid = true
  · rw [record_noop_of_processed db r hp]
    exact hp
  · unfold process_ledger_record
    simp only [ht, ne_eq, not_true_eq_false, ite_false, if_neg, hp, Bool.false_eq_true,
      if_false]
    split
    · split
      · exact mark_sets_marker db r.rid r hid
      · exact mark_sets_marker _ r.rid r hid
    · exact mark_sets_marker db r.rid r hid

theorem has_processed_after_batch (db : DB) (l : List RawRecord) (i : String)
    (h : has_processed_ledger db i = true) :
    has_processed_ledger (process_ledger db l) i = true := by
  induction l generalizing db with
  | nil => exact h
  | cons r rest ih =>
    exact ih (process_ledger_record db r) (has_processed_after_record db r i h)

theorem step_after_batch (db : DB) (r : RawRecord) (batch : List RawRecord)
    (hid : r.rid ≠ "") :
    process_ledger_record (process_ledger db (r :: batch)) r =
      process_ledger db (r :: batch) := by
  by_cases ht : r.rtype = "DONATE"
  · refine record_noop_of_processed _ r ?_
    have h1 : has_processed_ledger (process_ledger_record db r) r.rid = true :=
      record_marks db r hid ht
    show has_processed_ledger (process_ledger (process_ledger_record db r) batch) r.rid = true
    exact has_processed_after_batch _ batch r.rid h1
  · have hskip : ∀ x : DB, process_ledger_record x r = x := fun x =>
      record_skip_of_not_donate x r ht
    rw [hskip]

/-- C1 amended: for any record with a truthy (non-empty) source id, ingesting
a batch containing the record twice, in the same batch or across two
batches, produces exactly the same store state as ingesting it once; and for
any record id already present in the processed-ledger marker store, the
record is skipped outright, a pure no-op on balances, donation history and
markers. (The original claim fails only for the degenerate falsy id, see the
counterexample.) -/
theorem ingest_idempotent (db : DB) (r : RawRecord) (batch : List RawRecord)
    (hid : r.rid ≠ "") :
    process_ledger db (r :: batch ++ [r]) = process_ledger db (r :: batch) ∧
    process_ledger (process_ledger db (r :: batch)) [r] = process_ledger db (r :: batch) ∧
    (has_processed_ledger db r.rid = true → process_ledger_record db r = db) := by
  have hcore : process_ledger_record (process_ledger db (r :: batch)) r =
      process_ledger db (r :: batch) := step_after_batch db r batch hid
  refine ⟨?_, ?_, fun h => record_noop_of_processed db r h⟩
  · have h1 : process_ledger db (r :: batch) =
        List.foldl process_ledger_record (process_ledger_record db r) batch := by
      simp [process_ledger]
    show List.foldl process_ledger_record db (r :: (batch ++ [r])) =
      process_ledger db (r :: batch)
    rw [List.foldl_cons, List.foldl_append]
    simp only [List.foldl_cons, List.foldl_nil]
    rw [← h1]
    exact hcore
  · show process_ledger_record (process_ledger db (r :: batch)) r =
      process_ledger db (r :: batch)
    exact hcore

/-- Witness for ingest_idempotent on a concrete record and the empty store. -/
theorem ingest_idempotent_witness :
    process_ledger emptyDB (w1_donation :: [] ++ [w1_donation]) =
      process_ledger emptyDB (w1_donation :: []) ∧
    process_ledger (process_ledger emptyDB (w1_donation :: [])) [w1_donation] =
      process_ledger emptyDB (w1_donation :: []) ∧
    (has_processed_ledger emptyDB w1_donation.rid = true →
      process_ledger_record emptyDB w1_donation = emptyDB) :=
  ingest_idempotent emptyDB w1_donation [] (by decide)

/-- C7: donation-tiered point computation: for a donation-mode configuration
with a positive unit size, a non-positive amount yields 0 points, and a
positive amount yields floor(amount / unit_size) * weight, raised to the
configured minimum floor when that floor is set; with unit 1000 and weight 1
an amount of 2500 yields 2 points, an amount of 1 yields the configured
minimum floor, and 0 when no floor is configured. -/
theorem donation_tiered_points (config : PointsConfig) (amount : Int)
    (hmode : config.mode = "donation") (hper : 1 ≤ config.per_amount) :
    (amount ≤ 0 → compute_points config amount = 0) ∧
    (0 < amount →
      compute_points config amount =
        (if 0 < config.min_points
         then max (Int.fdiv amount config.per_amount * config.multiplier) config.min_points
         else Int.fdiv amount config.per_amount * config.multiplier)) ∧
    compute_points DONATION_ORO_config 2500 = 2 ∧
    compute_points DONATION_ORO_config 1 = 1 ∧
    compute_points { DONATION_ORO_config with min_points := 0 } 1 = 0 := by
  refine ⟨?_, ?_, by decide, by decide, by decide⟩
  · intro hle
    simp [compute_points, hmode, hle]
  · intro hpos
    have hle : ¬ amount ≤ 0 := not_le.mpr hpos
    have hmax : max config.per_amount 1 = config.per_amount := max_eq_left hper
    by_cases hmin : 0 < config.min_points
    · by_cases hcomp : Int.fdiv amount config.per_amount * config.multiplier ≤ 0
      · have h1 : max (Int.fdiv amount config.per_amount * config.multiplier)
            config.min_points = config.min_points := max_eq_right (hcomp.trans hmin.le)
        simp [compute_points, hmode, hle, hmax, hmin, hcomp, h1]
      · simp [compute_points, hmode, hle, hmax, hmin, hcomp]
    · simp [compute_points, hmode, hle, hmax, hmin]

/-- Witness for donation_tiered_points at the gold donation configuration
and the amount 2500. -/
theorem donation_tiered_points_witness :
    ((2500 : Int) ≤ 0 → compute_points DONATION_ORO_config 2500 = 0) ∧
    (0 < (2500 : Int) →
      compute_points DONATION_ORO_config 2500 =
        (if 0 < DONATION_ORO_config.min_points
         then max (Int.fdiv 2500 DONATION_ORO_config.per_amount * DONATION_ORO_config.multiplier)
            DONATION_ORO_config.min_points
         else Int.fdiv 2500 DONATION_ORO_config.per_amount * DONATION_ORO_config.multiplier)) ∧
    compute_points DONATION_ORO_config 2500 = 2 ∧
    compute_points DONATION_ORO_config 1 = 1 ∧
    compute_points { DONATION_ORO_config with min_points := 0 } 1 = 0 :=
  donation_tiered_points DONATION_ORO_config 2500 (by decide) (by decide)

/-- C2 counterexample: ingesting the donation record r1 (username Foo, gold
2000) against the empty store leaves no Economy Record keyed by the
lowercased username foo and writes no RewardHistoryEvent at all: the ingest
path stores the record under the verbatim resolved username and never calls
the reward engine. -/
theorem donation_scenario_counterexample :
    findUser (process_ledger emptyDB [r1_donation]).users "foo" = none ∧
    (process_ledger emptyDB [r1_donation]).rewards_history = [] := by decide

/-- C2 amended: ingesting r1 against the empty store leaves one Economy
Record keyed by the verbatim resolved username Foo with Oro = 2000, an
idempotency marker for r1 and one donation-history entry; no
RewardHistoryEvent is written, and re-ingesting r1 changes nothing. -/
theorem donation_scenario_amended :
    findUser (process_ledger emptyDB [r1_donation]).users "Foo" =
      some { oid := 0, username := "Foo", donazioni := [("Oro", 2000)],
             reward_points := 0, achievements := [] } ∧
    has_processed_ledger (process_ledger emptyDB [r1_donation]) "r1" = true ∧
    ((process_ledger emptyDB [r1_donation]).donation_history.map
      (fun e => (e.did, e.username, e.gold, e.gems))) = [("r1", "Foo", 2000, 0)] ∧
    (process_ledger emptyDB [r1_donation]).rewards_history = [] ∧
    process_ledger (process_ledger emptyDB [r1_donation]) [r1_donation] =
      process_ledger emptyDB [r1_donation] := by decide

/-- C3: on a donation record whose username never resolves (it strips to
nothing), the scheduled MaintenanceService.process_ledger writes the
idempotency marker and changes no balance and no donation history, while the
legacy process_ledger retained in src/bot.py skips the marker write, leaving
the record to be retried forever. -/
theorem unresolved_marker_divergence :
    has_processed_ledger (process_ledger emptyDB [blank_username_record]) "r9" = true ∧
    (process_ledger emptyDB [blank_username_record]).users = [] ∧
    (process_ledger emptyDB [blank_username_record]).donation_history = [] ∧
    has_processed_ledger (process_ledger_legacy emptyDB [blank_username_record]) "r9" = false ∧
    (process_ledger_legacy emptyDB [blank_username_record]).users = [] := by decide

theorem rename_updateFirst_spec (old_username new_username : String) (d : UserDoc) :
    ∀ l : List UserDoc, findUser l old_username = some d →
      findUser l new_username = none →
      l.Pairwise (fun a b => a.oid ≠ b.oid) →
      findUser (updateFirst (fun x => x.oid == d.oid)
          (fun x => { x with username := new_username }) l) new_username =
        some { d with username := new_username } ∧
      (updateFirst (fun x => x.oid == d.oid)
          (fun x => { x with username := new_username }) l).length = l.length ∧
      ∀ e ∈ l, e.oid ≠ d.oid → e ∈ updateFirst (fun x => x.oid == d.oid)
          (fun x => { x with username := new_username }) l := by
  intro l
  induction l with
  | nil => intro hfind _ _; simp [findUser] at hfind
  | cons x xs ih =>
    intro hfind hnone hpw
    have hxnew : x.username ≠ new_username := by
      intro hcontra
      simp [findUser, List.find?_cons, hcontra] at hnone
    have hnone' : findUser xs new_username = none := by
      simpa [findUser, List.find?_cons, hxnew] using hnone
    by_cases hx : x.username = old_username
    · have hxd : x = d := by
        simpa [findUser, List.find?_cons, hx] using hfind
      subst hxd
      have hupd : updateFirst (fun y => y.oid == x.oid)
          (fun y => { y with username := new_username }) (x :: xs) =
          { x with username := new_username } :: xs := by
        simp [updateFirst]
      refine ⟨?_, ?_, ?_⟩
      · rw [hupd]
        simp [findUser, List.find?_cons]
      · rw [hupd]; simp
      · intro e he hoid
        rcases List.mem_cons.mp he with rfl | hmem
        · exact absurd rfl hoid
        · rw [hupd]
          exact List.mem_cons_of_mem _ hmem
    · have hfind' : findUser xs old_username = some d := by
        simpa [findUser, List.find?_cons, hx] using hfind
      have hdmem : d ∈ xs := by
        have := List.mem_of_find?_eq_some hfind'
        exact this
      have hxd : x.oid ≠ d.oid := (List.pairwise_cons.mp hpw).1 d hdmem
      have hupd : updateFirst (fun y => y.oid == d.oid)
          (fun y => { y with username := new_username }) (x :: xs) =
          x :: updateFirst (fun y => y.oid == d.oid)
            (fun y => { y with username := new_username }) xs := by
        simp [updateFirst, hxd]
      rcases ih hfind' hnone' (List.pairwise_cons.mp hpw).2 with ⟨ih1, ih2, ih3⟩
      refine ⟨?_, ?_, ?_⟩
      · rw [hupd]
        simpa [findUser, List.find?_cons, hxnew] using ih1
      · rw [hupd]
        simp [ih2]
      · intro e he hoid
        rcases List.mem_cons.mp he with rfl | hmem
        · rw [hupd]; exact List.mem_cons_self _ _
        · rw [hupd]; exact List.mem_cons_of_mem _ (ih3 e hmem hoid)

/-- C10: rename without a merge target: when migrate_user_record is called
with distinct non-empty usernames, a record exists under the old name and no
Economy Record exists under the new name, the call reports a rename, the old
record is re-keyed in place to the new name keeping every other field
(counters, reward points, achievements), the store size is unchanged and
every other record survives untouched. -/
theorem rename_without_merge (users : List UserDoc) (old_username new_username : String)
    (d : UserDoc)
    (hold : findUser users old_username = some d)
    (hnew : findUser users new_username = none)
    (hne : old_username ≠ new_username)
    (ho : old_username ≠ "") (hn : new_username ≠ "")
    (hoid : users.Pairwise (fun a b => a.oid ≠ b.oid)) :
    (migrate_user_record users old_username new_username).1 = MigrateStatus.renamed ∧
    findUser (migrate_user_record users old_username new_username).2 new_username =
      some { d with username := new_username } ∧
    (migrate_user_record users old_username new_username).2.length = users.length ∧
    ∀ e ∈ users, e.oid ≠ d.oid →
      e ∈ (migrate_user_record users old_username new_username).2 := by
  have hmig : migrate_user_record users old_username new_username =
      (MigrateStatus.renamed, updateFirst (fun x => x.oid == d.oid)
        (fun x => { x with username := new_username }) users) := by
    unfold migrate_user_record
    rw [if_neg (by simp [ho, hn, hne])]
    simp only [hold, hnew]
  rcases rename_updateFirst_spec old_username new_username d users hold hnew hoid with
    ⟨h1, h2, h3⟩
  rw [hmig]
  exact ⟨rfl, h1, h2, h3⟩

/-- Witness for rename_without_merge: renaming Carl to Emma in a two-record
store. -/
theorem rename_without_merge_witness :
    (migrate_user_record rename_only_users "Carl" "Emma").1 = MigrateStatus.renamed ∧
    findUser (migrate_user_record rename_only_users "Carl" "Emma").2 "Emma" =
      some { oid := 3, username := "Emma", donazioni := [("Oro", 7)], reward_points := 4,
             achievements := ["Z"] } ∧
    (migrate_user_record rename_only_users "Carl" "Emma").2.length =
      rename_only_users.length ∧
    ∀ e ∈ rename_only_users, e.oid ≠ 3 →
      e ∈ (migrate_user_record rename_only_users "Carl" "Emma").2 :=
  rename_without_merge rename_only_users "Carl" "Emma"
    { oid := 3, username := "Carl", donazioni := [("Oro", 7)], reward_points := 4,
      achievements := ["Z"] }
    (by decide) (by decide) (by decide) (by decide) (by decide) (by decide)

/-- C6: alias-history resolution: for a (stripped) input that matches no
profile's current lowercased username while P is the first stored profile
whose game-username history holds an entry with that lowercased value,
resolution returns P's current username B (never the stale alias) with
match = history, both from the raw store lookup and through
IdentityService.resolve_member_identity; matching is case-insensitive exact
string equality after normalization. -/
theorem alias_history_resolution (profiles : List Profile) (input : String) (P : Profile)
    (B : String)
    (hself : pyStrip input = input) (hne : input ≠ "")
    (hcur : ∀ p ∈ profiles, p.game_username_lower ≠ some (pyLower input))
    (hhist : profiles.find? (fun p => p.game_username_history.any
        (fun h => h.username_lower == some (pyLower input))) = some P)
    (hB : P.game_username = some B) (hBne : B ≠ "") :
    resolve_profile_by_game_alias profiles input =
      some { profile := P, resolved_username := B, matchSource := "history" } ∧
    (resolve_member_identity profiles (some input)).resolved_username = some B ∧
    (resolve_member_identity profiles (some input)).matchSource = some "history" := by
  have hfind1 : profiles.find?
      (fun p => p.game_username_lower == some (pyLower input)) = none := by
    refine List.find?_eq_none.mpr (fun p hp => ?_)
    simp [hcur p hp]
  have h1 : resolve_profile_by_game_alias profiles input =
      some { profile := P, resolved_username := B, matchSource := "history" } := by
    unfold resolve_profile_by_game_alias
    rw [if_neg hne, hself, if_neg hne]
    simp only [hfind1, hhist]
    simp [orElseStr, hB, hBne]
  have hid : resolve_member_identity profiles (some input) =
      { original_username := some input, resolved_username := some B,
        telegram_id := some P.telegram_id, telegram_username := P.telegram_username,
        matchSource := some "history", profileFound := some P } := by
    unfold resolve_member_identity
    simp only [Option.getD_some, hself]
    rw [if_neg hne]
    simp only [h1]
    simp [hne, hBne]
  exact ⟨h1, by rw [hid], by rw [hid]⟩

/-- Witness for alias_history_resolution: the stored profile currently named
B with history [A, B]; resolving the differently cased alias A yields B with
match = history. -/
theorem alias_history_resolution_witness :
    resolve_profile_by_game_alias [alias_profile] "A" =
      some { profile := alias_profile, resolved_username := "B", matchSource := "history" } ∧
    (resolve_member_identity [alias_profile] (some "A")).resolved_username = some "B" ∧
    (resolve_member_identity [alias_profile] (some "A")).matchSource = some "history" :=
  alias_history_resolution [alias_profile] "A" alias_profile "B" (by decide) (by decide)
    (by decide) (by decide) (by decide) (by decide)

/-- C9: link conflict atomicity: when the requested game username is already
(case-insensitively) the current username of a profile bound to a different
chat-platform id, or the game account id is already bound to a different
profile, link_player_profile returns the structured conflict result and the
store is left completely unchanged. -/
theorem link_conflict_atomicity (db : DB) (tid : Int) (g : String)
    (tgU fn wid vc vm : Option String) (ver : Bool) :
    (∀ q : Profile, pyStrip g ≠ "" →
      db.profiles.find? (fun p => p.game_username_lower == some (pyLower (pyStrip g))) =
        some q →
      q.telegram_id ≠ tid →
      link_player_profile db tid g tgU fn wid ver vc vm =
        .ok (.conflict "game_username" q, db)) ∧
    (∀ q : Profile, pyStrip g ≠ "" →
      (∀ q' : Profile, db.profiles.find?
          (fun p => p.game_username_lower == some (pyLower (pyStrip g))) = some q' →
        q'.telegram_id = tid) →
      optTruthy wid = true →
      db.profiles.find? (fun p => p.wolvesville_id == wid) = some q →
      q.telegram_id ≠ tid →
      link_player_profile db tid g tgU fn wid ver vc vm =
        .ok (.conflict "wolvesville_id" q, db)) := by
  constructor
  · intro q hg hfind hne
    unfold link_player_profile
    rw [if_neg hg]
    simp only [hfind]
    simp [hne]
  · intro q hg hall ht hfind hne
    unfold link_player_profile
    rw [if_neg hg]
    cases hu : db.profiles.find?
        (fun p => p.game_username_lower == some (pyLower (pyStrip g))) with
    | none =>
      simp only [hu]
      unfold link_after_username_check
      simp only [ht, if_pos, ite_true, hfind]
      simp [hne]
    | some q' =>
      have hq' := hall q' hu
      simp only [hu]
      rw [if_neg (by simp [hq'])]
      unfold link_after_username_check
      simp only [ht, if_pos, ite_true, hfind]
      simp [hne]

/-- Witness for link_conflict_atomicity: linking chat id 5 to the game
username Taken, already owned by the profile of chat id 42, is rejected
with a game_username conflict and no store change. -/
theorem link_conflict_atomicity_witness :
    link_player_profile conflict_db 5 "Taken" none none none false none none =
      .ok (.conflict "game_username" conflict_profile, conflict_db) :=
  (link_conflict_atomicity conflict_db 5 "Taken" none none none none none false).1
    conflict_profile (by decide) (by decide) (by decide)

theorem resolve_none_iff (profiles : List Profile) (p : String) :
    (resolve_member_identity profiles (some p)).resolved_username = none ↔
      pyStrip p = "" := by
  unfold resolve_member_identity
  by_cases hc : pyStrip p = ""
  · simp [hc]
  · simp only [Option.getD_some]
    rw [if_neg hc]
    cases halias : resolve_profile_by_game_alias profiles (pyStrip p) <;> simp [hc, halias]

theorem resolved_count_eq_nonblank_count (profiles : List Profile) (ps : List String) :
    (resolved_identities_of profiles ps).length =
      (ps.filter (fun p => pyStrip p != "")).length := by
  induction ps with
  | nil => rfl
  | cons p rest ih =>
    by_cases hp : pyStrip p = ""
    · have hres : (resolve_member_identity profiles (some p)).resolved_username = none :=
        (resolve_none_iff profiles p).mpr hp
      have hstep : resolved_identities_of profiles (p :: rest) =
          resolved_identities_of profiles rest := by
        simp [resolved_identities_of, List.filterMap_cons, hres]
      rw [hstep, List.filter_cons, if_neg (by simp [hp])]
      exact ih
    · obtain ⟨r, hr⟩ : ∃ r,
          (resolve_member_identity profiles (some p)).resolved_username = some r := by
        cases h : (resolve_member_identity profiles (some p)).resolved_username with
        | none => exact absurd ((resolve_none_iff profiles p).mp h) hp
        | some r => exact ⟨r, rfl⟩
      have hstep : resolved_identities_of profiles (p :: rest) =
          resolve_member_identity profiles (some p) :: resolved_identities_of profiles rest := by
        simp [resolved_identities_of, List.filterMap_cons, hr]
      rw [hstep, List.filter_cons, if_pos (by simp [hp])]
      simp [ih]

theorem users_log_mission_participation (db : DB) (mid : Option String)
    (mt : String) (entries parts : List String) (cost : Int) (o s : String) :
    (log_mission_participation db mid mt entries parts cost o s).2.users = db.users := by
  unfold log_mission_participation
  by_cases h1 : entries = []
  · simp [h1]
  · by_cases h2 : parts = [] <;> simp [h1, h2]

theorem users_mark_active_mission (db : DB) (mid : String) (t : Option String) :
    (mark_active_mission_processed db mid t).users = db.users := by
  unfold mark_active_mission_processed
  by_cases h : mid = ""
  · simp [h]
  · by_cases hf : ((db.processed_active_missions.find? (fun m => m.1 == mid)).isSome = true) <;>
      simp [h, hf]

/-- C5: mission-cost tiering on the resolved headcount: the number of
resolved participants equals the number of raw participants whose username
does not strip to nothing; the gem tier is 140 above 7 resolved
participants, 150 for 5 to 7 and 0 below 5; a gem mission charges every
resolved participant the tier cost of that resolved count (not of the raw
list size), and the 3-resolved / 2-unresolved batch of 5 raw participants is
costed on 3, not 5. The same holds on the automatic active-mission path. -/
theorem mission_cost_tiering :
    (∀ (profiles : List Profile) (ps : List String),
      (resolved_identities_of profiles ps).length =
        (ps.filter (fun p => pyStrip p != "")).length) ∧
    (∀ n : Nat, (n > 7 → gem_mission_cost n = 140) ∧
      (5 ≤ n → n ≤ 7 → gem_mission_cost n = 150) ∧ (n < 5 → gem_mission_cost n = 0)) ∧
    (∀ (db : DB) (ps : List String) (mid : Option String) (outcome source : String),
      (process_mission db ps "Gem" mid outcome source).2.users =
        (if gem_mission_cost ((ps.filter (fun p => pyStrip p != "")).length) = 0 then
          db.users
         else ((resolved_identities_of db.profiles ps).foldl
            (fun acc identity => update_user_balance acc
              (identity.resolved_username.getD "") "Gem"
              (-(gem_mission_cost ((ps.filter (fun p => pyStrip p != "")).length))))
            db).users)) ∧
    (∀ (db : DB) (active_data : ActiveMissionData) (quest : ActiveQuest),
      active_data.quest = some quest → quest.purchasableWithGems = true →
      quest.qid.getD "" ≠ "" → active_data.tierStartTime.getD "" ≠ "" →
      has_processed_active_mission db (quest.qid.getD "") = false →
      (process_active_mission_auto db active_data).users =
        (let raws := active_data.participants.filterMap (fun p =>
           match p.username with
           | some u => if u = "" then none else some u
           | none => none)
         if gem_mission_cost ((raws.filter (fun p => pyStrip p != "")).length) = 0 then
           db.users
         else ((resolved_identities_of db.profiles raws).foldl
            (fun acc identity => update_user_balance acc
              (identity.resolved_username.getD "") "Gem"
              (-(gem_mission_cost ((raws.filter (fun p => pyStrip p != "")).length))))
            db).users)) ∧
    ((["Alice", "Bob", "Carol", " ", "  "].filter (fun p => pyStrip p != "")).length = 3 ∧
      (["Alice", "Bob", "Carol", " ", "  "] : List String).length = 5 ∧
      gem_mission_cost 3 = 0 ∧ gem_mission_cost 5 = 150) := by
  refine ⟨resolved_count_eq_nonblank_count, ?_, ?_, ?_, by decide⟩
  · intro n
    refine ⟨fun h => ?_, fun h5 h7 => ?_, fun h => ?_⟩ <;>
      simp [gem_mission_cost] <;> omega
  · intro db ps mid outcome source
    have h0 : gem_mission_cost 0 = 0 := by decide
    by_cases hps : ps = []
    · subst hps
      simp [process_mission, h0]
    · unfold process_mission
      rw [if_neg hps]
      have hmt : ("Gem" : String) = "" ↔ False := by simp
      have hlow : pyLower "Gem" = "gem" := by decide
      simp only [hmt, ite_false, if_neg, hlow]
      have hcount : (resolved_identities_of db.profiles ps).length =
          (ps.filter (fun p => pyStrip p != "")).length :=
        resolved_count_eq_nonblank_count db.profiles ps
      by_cases hres : resolved_identities_of db.profiles ps = []
      · rw [← hcount]
        simp [hres]
      · simp only [hres, ite_false, if_neg]
        rw [← hcount]
        by_cases hc : gem_mission_cost (resolved_identities_of db.profiles ps).length = 0
        · simp [hres, hc, users_log_mission_participation]
        · simp [hres, hc, users_log_mission_participation]
  · intro db active_data quest hq hgems hid htier hproc
    unfold process_active_mission_auto
    rw [hq]
    simp only [hgems]
    have hnotor : ¬ (quest.qid.getD "" = "" ∨ active_data.tierStartTime.getD "" = "") := by
      simp [hid, htier]
    rw [if_neg hnotor, if_neg (by simp [hproc])]
    set raws := active_data.participants.filterMap (fun p =>
      match p.username with
      | some u => if u = "" then none else some u
      | none => none) with hraws
    have hcount : (resolved_identities_of db.profiles raws).length =
        (raws.filter (fun p => pyStrip p != "")).length :=
      resolved_count_eq_nonblank_count db.profiles raws
    have h0 : gem_mission_cost 0 = 0 := by decide
    by_cases hrawnil : raws = []
    · simp [hrawnil, h0]
    · rw [if_neg hrawnil]
      by_cases hres : resolved_identities_of db.profiles raws = []
      · rw [← hcount]
        simp [hres]
      · simp only [hres, ite_false, if_neg]
        have hGem : (("Gem" : String) = "Gold") = False := by decide
        simp only [if_true, ite_true, hGem, ite_false]
        rw [← hcount]
        by_cases hc : gem_mission_cost (resolved_identities_of db.profiles raws).length = 0
        · simp [hres, hc, users_mark_active_mission, users_log_mission_participation]
        · simp [hres, hc, users_mark_active_mission, users_log_mission_participation]

/-- Witness for mission_cost_tiering: the 3-resolved, 2-blank batch of 5 raw
participants, the three tier values, and the automatic path on a concrete
active gem mission. -/
theorem mission_cost_tiering_witness :
    (resolved_identities_of [] ["Alice", "Bob", "Carol", " ", "  "]).length =
      ((["Alice", "Bob", "Carol", " ", "  "] : List String).filter
        (fun p => pyStrip p != "")).length ∧
    gem_mission_cost 8 = 140 ∧ gem_mission_cost 5 = 150 ∧ gem_mission_cost 3 = 0 ∧
    (process_active_mission_auto emptyDB active_fixture).users =
      (let raws := active_fixture.participants.filterMap (fun p =>
         match p.username with
         | some u => if u = "" then none else some u
         | none => none)
       if gem_mission_cost ((raws.filter (fun p => pyStrip p != "")).length) = 0 then
         emptyDB.users
       else ((resolved_identities_of emptyDB.profiles raws).foldl
          (fun acc identity => update_user_balance acc
            (identity.resolved_username.getD "") "Gem"
            (-(gem_mission_cost ((raws.filter (fun p => pyStrip p != "")).length))))
          emptyDB).users) :=
  ⟨mission_cost_tiering.1 [] ["Alice", "Bob", "Carol", " ", "  "],
   (mission_cost_tiering.2.1 8).1 (by decide),
   (mission_cost_tiering.2.1 5).2.1 (by decide) (by decide),
   (mission_cost_tiering.2.1 3).2.2 (by decide),
   mission_cost_tiering.2.2.2.1 emptyDB active_fixture
     { qid := some "m1", purchasableWithGems := true } (by decide) (by decide) (by decide)
     (by decide) (by decide)⟩

theorem donGet_nil (x : String) : donGet [] x = 0 := rfl

theorem donGet_cons (k : String) (w : Int) (rest : List (String × Int)) (x : String) :
    donGet ((k, w) :: rest) x = if k = x then w else donGet rest x := by
  by_cases hk : k = x
  · subst hk
    simp [donGet, List.find?_cons]
  · have hb : (k == x) = false := beq_eq_false_iff_ne.mpr hk
    simp [donGet, List.find?_cons, hb, hk]

theorem donGet_donInc (m : List (String × Int)) (c : String) (v : Int) (x : String) :
    donGet (donInc m c v) x = donGet m x + (if x = c then v else 0) := by
  induction m with
  | nil =>
    show donGet [(c, v)] x = donGet [] x + (if x = c then v else 0)
    rw [donGet_cons, donGet_nil]
    by_cases hx : x = c
    · simp [hx]
    · have hx' : ¬ c = x := fun h => hx h.symm
      simp [hx, hx']
  | cons kv rest ih =>
    obtain ⟨k, w⟩ := kv
    by_cases hk : k = c
    · subst hk
      have hstep : donInc ((k, w) :: rest) k v = (k, w + v) :: rest := by
        simp [donInc]
      rw [hstep, donGet_cons, donGet_cons]
      by_cases hx : k = x
      · subst hx
        simp
      · have hx' : ¬ x = k := fun h => hx h.symm
        simp [hx, hx']
    · have hstep : donInc ((k, w) :: rest) c v = (k, w) :: donInc rest c v := by
        simp [donInc, hk]
      rw [hstep, donGet_cons, donGet_cons, ih]
      by_cases hx : k = x
      · subst hx
        simp [hk]
      · simp [hx]

theorem donGet_eq_zero_of_keys_ne (m : List (String × Int)) (x : String)
    (h : ∀ kv ∈ m, kv.1 ≠ x) : donGet m x = 0 := by
  unfold donGet
  rw [List.find?_eq_none.mpr (fun kv hkv => by simp [h kv hkv])]

theorem donGet_foldInto (m : List (String × Int)) (x : String)
    (hm : m.Pairwise (fun a b => a.1 ≠ b.1)) :
    ∀ acc : List (String × Int),
      donGet (m.foldl (fun a kv => donInc a kv.1 kv.2) acc) x =
        donGet acc x + donGet m x := by
  induction m with
  | nil => intro acc; simp [donGet]
  | cons kv rest ih =>
    intro acc
    obtain ⟨k, v⟩ := kv
    rw [List.foldl_cons]
    rw [ih (List.pairwise_cons.mp hm).2 (donInc acc k v)]
    rw [donGet_donInc, donGet_cons]
    by_cases hx : x = k
    · subst hx
      have hz : donGet rest x = 0 :=
        donGet_eq_zero_of_keys_ne rest x
          (fun q hq => Ne.symm ((List.pairwise_cons.mp hm).1 q hq))
      simp [hz]
    · have hx' : ¬ k = x := fun h => hx h.symm
      simp [hx, hx']

theorem donGet_merge_donation_maps (a b : List (String × Int)) (x : String)
    (ha : a.Pairwise (fun p q => p.1 ≠ q.1)) (hb : b.Pairwise (fun p q => p.1 ≠ q.1)) :
    donGet (merge_donation_maps [a, b]) x = donGet a x + donGet b x := by
  unfold merge_donation_maps
  simp only [List.foldl_cons, List.foldl_nil]
  rw [donGet_foldInto b x hb, donGet_foldInto a x ha]
  simp [donGet]

theorem mem_achAdd (s : List String) (b a : String) :
    a ∈ achAdd s b ↔ a ∈ s ∨ a = b := by
  unfold achAdd
  by_cases hb : b ∈ s
  · simp only [hb, ite_true]
    constructor
    · exact Or.inl
    · rintro (h | rfl)
      · exact h
      · exact hb
  · simp [hb]

theorem mem_foldl_achAdd (l : List String) (a : String) :
    ∀ acc : List String, a ∈ l.foldl achAdd acc ↔ a ∈ acc ∨ a ∈ l := by
  induction l with
  | nil => intro acc; simp
  | cons b rest ih =>
    intro acc
    rw [List.foldl_cons, ih (achAdd acc b), mem_achAdd]
    constructor
    · rintro ((h | rfl) | h)
      · exact Or.inl h
      · simp
      · simp [h]
    · rintro (h | h)
      · exact Or.inl (Or.inl h)
      · rcases List.mem_cons.mp h with rfl | h'
        · exact Or.inl (Or.inr rfl)
        · exact Or.inr h'

theorem mem_insertSortedStr (b a : String) (l : List String) :
    a ∈ insertSortedStr b l ↔ a = b ∨ a ∈ l := by
  induction l with
  | nil => simp [insertSortedStr]
  | cons c rest ih =>
    unfold insertSortedStr
    by_cases hc : b ≤ c
    · simp [hc]
    · simp only [hc, ite_false, List.mem_cons, ih]
      tauto

theorem mem_sortStrings (l : List String) (a : String) :
    a ∈ sortStrings l ↔ a ∈ l := by
  induction l with
  | nil => simp [sortStrings]
  | cons b rest ih =>
    unfold sortStrings at ih ⊢
    rw [List.foldr_cons, mem_insertSortedStr, ih, List.mem_cons]

theorem upd_only_spec (newU oldU : String) (dB : UserDoc) (g : UserDoc → UserDoc)
    (hg : ∀ d, (g d).username = d.username) (hBu : dB.username = newU)
    (hne : oldU ≠ newU) :
    ∀ l : List UserDoc, findUser l newU = some dB →
      (∀ e ∈ l, e.username ≠ oldU) →
      l.Pairwise (fun a b => a.username ≠ b.username) →
      l.Pairwise (fun a b => a.oid ≠ b.oid) →
      findUser (updateFirst (fun d => d.oid == dB.oid) g l) newU = some (g dB) ∧
      findUser (updateFirst (fun d => d.oid == dB.oid) g l) oldU = none ∧
      ((updateFirst (fun d => d.oid == dB.oid) g l).filter
        (fun x => x.username == newU)).length = 1 ∧
      (updateFirst (fun d => d.oid == dB.oid) g l).length = l.length := by
  intro l
  induction l with
  | nil => intro hB _ _ _; simp [findUser] at hB
  | cons y ys ih =>
    intro hB hnoOld hu hoid
    by_cases hy : y.username = newU
    · have hyB : y = dB := by
        simpa [findUser, List.find?_cons, hy] using hB
      subst hyB
      have hupd : updateFirst (fun d => d.oid == y.oid) g (y :: ys) = g y :: ys := by
        simp [updateFirst]
      rw [hupd]
      have hnoNew : ∀ e ∈ ys, e.username ≠ newU := by
        intro e he
        rw [← hy]
        exact fun h => ((List.pairwise_cons.mp hu).1 e he) h.symm
      refine ⟨?_, ?_, ?_, by simp⟩
      · simp [findUser, List.find?_cons, hg, hy]
      · have hgold : (g y).username ≠ oldU := by
          rw [hg, hy]; exact fun h => hne h.symm
        refine List.find?_eq_none.mpr ?_
        intro e he
        rcases List.mem_cons.mp he with rfl | hmem
        · simp [hgold]
        · simp [hnoOld e (List.mem_cons_of_mem _ hmem)]
      · rw [List.filter_cons]
        rw [if_pos (by simp [hg, hy])]
        have hnil : ys.filter (fun x => x.username == newU) = [] :=
          List.filter_eq_nil_iff.mpr (fun e he => by simp [hnoNew e he])
        simp [hnil]
    · have hB' : findUser ys newU = some dB := by
        simpa [findUser, List.find?_cons, hy] using hB
      have hdmem : dB ∈ ys := List.mem_of_find?_eq_some hB'
      have hyoid : y.oid ≠ dB.oid := (List.pairwise_cons.mp hoid).1 dB hdmem
      have hupd : updateFirst (fun d => d.oid == dB.oid) g (y :: ys) =
          y :: updateFirst (fun d => d.oid == dB.oid) g ys := by
        simp [updateFirst, hyoid]
      rw [hupd]
      rcases ih hB' (fun e he => hnoOld e (List.mem_cons_of_mem _ he))
          (List.pairwise_cons.mp hu).2 (List.pairwise_cons.mp hoid).2 with
        ⟨ih1, ih2, ih3, ih4⟩
      refine ⟨?_, ?_, ?_, by simp [ih4]⟩
      · simpa [findUser, List.find?_cons, hy] using ih1
      · have : y.username ≠ oldU := hnoOld y (List.mem_cons_self _ _)
        simpa [findUser, List.find?_cons, this] using ih2
      · rw [List.filter_cons, if_neg (by simp [hy])]
        exact ih3

theorem rem_spec (oldU : String) (dA : UserDoc) (hAu : dA.username = oldU) :
    ∀ l : List UserDoc, findUser l oldU = some dA →
      l.Pairwise (fun a b => a.username ≠ b.username) →
      l.Pairwise (fun a b => a.oid ≠ b.oid) →
      findUser (removeFirst (fun d => d.oid == dA.oid) l) oldU = none ∧
      (removeFirst (fun d => d.oid == dA.oid) l).length + 1 = l.length ∧
      ∀ e ∈ removeFirst (fun d => d.oid == dA.oid) l, e ∈ l := by
  intro l
  induction l with
  | nil => intro hA _ _; simp [findUser] at hA
  | cons y ys ih =>
    intro hA hu hoid
    by_cases hy : y.username = oldU
    · have hyA : y = dA := by
        simpa [findUser, List.find?_cons, hy] using hA
      subst hyA
      have hrem : removeFirst (fun d => d.oid == y.oid) (y :: ys) = ys := by
        simp [removeFirst]
      rw [hrem]
      refine ⟨?_, by simp, fun e he => List.mem_cons_of_mem _ he⟩
      refine List.find?_eq_none.mpr ?_
      intro e he
      have : y.username ≠ e.username := (List.pairwise_cons.mp hu).1 e he
      rw [hy] at this
      simp [Ne.symm this]
    · have hA' : findUser ys oldU = some dA := by
        simpa [findUser, List.find?_cons, hy] using hA
      have hdmem : dA ∈ ys := List.mem_of_find?_eq_some hA'
      have hyoid : y.oid ≠ dA.oid := (List.pairwise_cons.mp hoid).1 dA hdmem
      have hrem : removeFirst (fun d => d.oid == dA.oid) (y :: ys) =
          y :: removeFirst (fun d => d.oid == dA.oid) ys := by
        simp [removeFirst, hyoid]
      rw [hrem]
      rcases ih hA' (List.pairwise_cons.mp hu).2 (List.pairwise_cons.mp hoid).2 with
        ⟨ih1, ih2, ih3⟩
      refine ⟨?_, by simp [← ih2], ?_⟩
      · simpa [findUser, List.find?_cons, hy] using ih1
      · intro e he
        rcases List.mem_cons.mp he with rfl | hmem
        · exact List.mem_cons_self _ _
        · exact List.mem_cons_of_mem _ (ih3 e hmem)

theorem merge_users_spec (oldU newU : String) (dA dB : UserDoc) (g : UserDoc → UserDoc)
    (hg : ∀ d, (g d).username = d.username) (hgoid : ∀ d, (g d).oid = d.oid)
    (hne : oldU ≠ newU) (hAu : dA.username = oldU) (hBu : dB.username = newU) :
    ∀ l : List UserDoc, findUser l oldU = some dA → findUser l newU = some dB →
      l.Pairwise (fun a b => a.username ≠ b.username) →
      l.Pairwise (fun a b => a.oid ≠ b.oid) →
      findUser (removeFirst (fun d => d.oid == dA.oid)
          (updateFirst (fun d => d.oid == dB.oid) g l)) newU = some (g dB) ∧
      findUser (removeFirst (fun d => d.oid == dA.oid)
          (updateFirst (fun d => d.oid == dB.oid) g l)) oldU = none ∧
      ((removeFirst (fun d => d.oid == dA.oid)
          (updateFirst (fun d => d.oid == dB.oid) g l)).filter
        (fun x => x.username == newU)).length = 1 ∧
      (removeFirst (fun d => d.oid == dA.oid)
          (updateFirst (fun d => d.oid == dB.oid) g l)).length + 1 = l.length := by
  intro l
  induction l with
  | nil => intro hA _ _ _; simp [findUser] at hA
  | cons y ys ih =>
    intro hA hB hu hoid
    by_cases hy : y.username = oldU
    · have hyA : y = dA := by
        simpa [findUser, List.find?_cons, hy] using hA
      subst hyA
      have hynew : y.username ≠ newU := by
        rw [hy]; exact hne
      have hB' : findUser ys newU = some dB := by
        simpa [findUser, List.find?_cons, hynew] using hB
      have hdmem : dB ∈ ys := List.mem_of_find?_eq_some hB'
      have hyoid : y.oid ≠ dB.oid := (List.pairwise_cons.mp hoid).1 dB hdmem
      have hupd : updateFirst (fun d => d.oid == dB.oid) g (y :: ys) =
          y :: updateFirst (fun d => d.oid == dB.oid) g ys := by
        simp [updateFirst, hyoid]
      have hrem : removeFirst (fun d => d.oid == y.oid)
          (y :: updateFirst (fun d => d.oid == dB.oid) g ys) =
          updateFirst (fun d => d.oid == dB.oid) g ys := by
        simp [removeFirst]
      rw [hupd, hrem]
      have hnoOld : ∀ e ∈ ys, e.username ≠ oldU := by
        intro e he h
        exact ((List.pairwise_cons.mp hu).1 e he) (hy.trans h.symm)
      rcases upd_only_spec newU oldU dB g hg hBu hne ys hB' hnoOld
          (List.pairwise_cons.mp hu).2 (List.pairwise_cons.mp hoid).2 with
        ⟨h1, h2, h3, h4⟩
      exact ⟨h1, h2, h3, by simp [h4]⟩
    · by_cases hyn : y.username = newU
      · have hyB : y = dB := by
          simpa [findUser, List.find?_cons, hyn] using hB
        subst hyB
        have hA' : findUser ys oldU = some dA := by
          simpa [findUser, List.find?_cons, hy] using hA
        have hdmem : dA ∈ ys := List.mem_of_find?_eq_some hA'
        have hyoid : y.oid ≠ dA.oid := (List.pairwise_cons.mp hoid).1 dA hdmem
        have hupd : updateFirst (fun d => d.oid == y.oid) g (y :: ys) = g y :: ys := by
          simp [updateFirst]
        have hgoidy : (g y).oid = y.oid := hgoid y
        have hrem : removeFirst (fun d => d.oid == dA.oid) (g y :: ys) =
            g y :: removeFirst (fun d => d.oid == dA.oid) ys := by
          simp [removeFirst, hgoidy, hyoid]
        rw [hupd, hrem]
        rcases rem_spec oldU dA hAu ys hA' (List.pairwise_cons.mp hu).2
            (List.pairwise_cons.mp hoid).2 with ⟨r1, r2, r3⟩
        have hnoNew : ∀ e ∈ ys, e.username ≠ newU := by
          intro e he
          rw [← hyn]
          exact fun h => ((List.pairwise_cons.mp hu).1 e he) h.symm
        refine ⟨?_, ?_, ?_, ?_⟩
        · simp [findUser, List.find?_cons, hg, hyn]
        · have hgold : (g y).username ≠ oldU := by
            rw [hg, hyn]; exact fun h => hne h.symm
          refine List.find?_eq_none.mpr ?_
          intro e he
          rcases List.mem_cons.mp he with rfl | hmem
          · simp [hgold]
          · have hin : e ∈ ys := r3 e hmem
            have := List.find?_eq_none.mp r1 e hmem
            simpa using this
        · rw [List.filter_cons, if_pos (by simp [hg, hyn])]
          have hnil : (removeFirst (fun d => d.oid == dA.oid) ys).filter
              (fun x => x.username == newU) = [] :=
            List.filter_eq_nil_iff.mpr (fun e he => by simp [hnoNew e (r3 e he)])
          simp [hnil]
        · simp [← r2]
      · have hA' : findUser ys oldU = some dA := by
          simpa [findUser, List.find?_cons, hy] using hA
        have hB' : findUser ys newU = some dB := by
          simpa [findUser, List.find?_cons, hyn] using hB
        have hdA : dA ∈ ys := List.mem_of_find?_eq_some hA'
        have hdB : dB ∈ ys := List.mem_of_find?_eq_some hB'
        have hyA : y.oid ≠ dA.oid := (List.pairwise_cons.mp hoid).1 dA hdA
        have hyB : y.oid ≠ dB.oid := (List.pairwise_cons.mp hoid).1 dB hdB
        have hupd : updateFirst (fun d => d.oid == dB.oid) g (y :: ys) =
            y :: updateFirst (fun d => d.oid == dB.oid) g ys := by
          simp [updateFirst, hyB]
        have hrem : removeFirst (fun d => d.oid == dA.oid)
            (y :: updateFirst (fun d => d.oid == dB.oid) g ys) =
            y :: removeFirst (fun d => d.oid == dA.oid)
              (updateFirst (fun d => d.oid == dB.oid) g ys) := by
          simp [removeFirst, hyA]
        rw [hupd, hrem]
        rcases ih hA' hB' (List.pairwise_cons.mp hu).2 (List.pairwise_cons.mp hoid).2 with
          ⟨ih1, ih2, ih3, ih4⟩
        refine ⟨?_, ?_, ?_, by simp [← ih4]⟩
        · simpa [findUser, List.find?_cons, hyn] using ih1
        · simpa [findUser, List.find?_cons, hy] using ih2
        · rw [List.filter_cons, if_neg (by simp [hyn])]
          exact ih3

theorem migrate_merge_eq (users : List UserDoc) (oldU newU : String) (dA dB : UserDoc)
    (hA : findUser users oldU = some dA) (hB : findUser users newU = some dB)
    (ho : oldU ≠ "") (hn : newU ≠ "") (hne : oldU ≠ newU) :
    migrate_user_record users oldU newU =
      (MigrateStatus.merged,
        removeFirst (fun d => d.oid == dA.oid)
          (updateFirst (fun d => d.oid == dB.oid)
            (fun d =>
              { d with
                donazioni := merge_donation_maps [dA.donazioni, dB.donazioni],
                reward_points := dA.reward_points + dB.reward_points,
                achievements :=
                  if sortStrings (((dA.achievements ++ dB.achievements).filter
                      (fun a => a != "")).foldl achAdd []) ≠ [] then
                    sortStrings (((dA.achievements ++ dB.achievements).filter
                      (fun a => a != "")).foldl achAdd [])
                  else d.achievements })
            users)) := by
  unfold migrate_user_record
  rw [if_neg (by simp [ho, hn, hne])]
  simp only [hA, hB]

theorem merged_ach_mem (dA dB : UserDoc) (hAach : "" ∉ dA.achievements)
    (hBach : "" ∉ dB.achievements) (a : String) :
    (a ∈ (if sortStrings (((dA.achievements ++ dB.achievements).filter
        (fun x => x != "")).foldl achAdd []) ≠ [] then
      sortStrings (((dA.achievements ++ dB.achievements).filter
        (fun x => x != "")).foldl achAdd [])
     else dB.achievements)) ↔
      a ∈ dA.achievements ∨ a ∈ dB.achievements := by
  have hmemA : ∀ b : String,
      b ∈ sortStrings (((dA.achievements ++ dB.achievements).filter
        (fun x => x != "")).foldl achAdd []) ↔
      (b ∈ dA.achievements ∨ b ∈ dB.achievements) ∧ b ≠ "" := by
    intro b
    rw [mem_sortStrings, mem_foldl_achAdd]
    simp only [List.mem_filter, List.mem_append, List.not_mem_nil, false_or, bne_iff_ne,
      ne_eq]
  have hne_of_mem : ∀ b : String, b ∈ dA.achievements ∨ b ∈ dB.achievements → b ≠ "" := by
    intro b hb hb0
    subst hb0
    rcases hb with hb | hb
    · exact hAach hb
    · exact hBach hb
  by_cases h0 : sortStrings (((dA.achievements ++ dB.achievements).filter
      (fun x => x != "")).foldl achAdd []) = []
  · rw [if_neg (fun hcon => hcon h0)]
    constructor
    · exact Or.inr
    · intro hmem
      have : a ∈ sortStrings (((dA.achievements ++ dB.achievements).filter
          (fun x => x != "")).foldl achAdd []) :=
        (hmemA a).mpr ⟨hmem, hne_of_mem a hmem⟩
      rw [h0] at this
      simp at this
  · rw [if_pos h0]
    rw [hmemA a]
    constructor
    · exact And.left
    · intro hmem
      exact ⟨hmem, hne_of_mem a hmem⟩

theorem link_reaches_apply (db : DB) (tid : Int) (g : String)
    (tgU fn vc vm : Option String) (ver : Bool)
    (hstrip : pyStrip g = g) (hg : g ≠ "")
    (hnoconf : ∀ q : Profile, db.profiles.find?
        (fun p => p.game_username_lower == some (pyLower g)) = some q →
      q.telegram_id = tid) :
    link_player_profile db tid g tgU fn none ver vc vm =
      link_apply db tid g (pyLower g) tgU
        (match tgU with
         | some t => if t = "" then none else some (pyLower t)
         | none => none)
        (match fn with
         | some f => if f = "" then none else some (pyStrip f)
         | none => none)
        none ver vc vm (db.profiles.find? (fun p => p.telegram_id == tid)) := by
  unfold link_player_profile
  rw [hstrip, if_neg hg]
  cases hu : db.profiles.find? (fun p => p.game_username_lower == some (pyLower g)) with
  | none =>
    simp only [hu]
    unfold link_after_username_check
    simp [optTruthy]
  | some q =>
    have hq := hnoconf q hu
    simp only [hu]
    rw [if_neg (by simp [hq])]
    unfold link_after_username_check
    simp [optTruthy]

theorem link_apply_rename (db : DB) (tid : Int) (nu nl : String)
    (tgU ntl cfn wid vc vm : Option String) (ver : Bool) (P : Profile) (oldU : String)
    (hgame : P.game_username = some oldU) (hne : nu ≠ oldU) (ho : oldU ≠ "") :
    ∃ pr : LinkResult × DB,
      link_apply db tid nu nl tgU ntl cfn wid ver vc vm (some P) = .ok pr ∧
      pr.2.users = (migrate_user_record db.users oldU nu).2 := by
  unfold link_apply
  dsimp only
  rw [hgame]
  have h1 : (some nu != some oldU) = true := by simp [hne]
  simp only [h1, if_true, ite_true]
  rw [if_pos ⟨trivial, by simp [optTruthy, ho]⟩]
  exact ⟨_, rfl, by simp⟩

/-- C4: merge on rename: when a link call renames a linked profile's game
username from oldU to newU and Economy Records exist under both names (in a
store with unique usernames and ids, duplicate-free donation keys and no
falsy achievement entries), the resulting store holds a single record keyed
newU whose per-currency counters are the sums of both records, whose reward
points are the sum of both totals and whose achievement set is the union of
both sets, and the record keyed oldU no longer exists. -/
theorem merge_on_rename (db : DB) (tid : Int) (P : Profile) (oldU newU : String)
    (dA dB : UserDoc) (tgU fn vc vm : Option String) (ver : Bool)
    (hstrip : pyStrip newU = newU) (hnew_ne : newU ≠ "") (hold_ne : oldU ≠ "")
    (hne : oldU ≠ newU)
    (hprof : db.profiles.find? (fun p => p.telegram_id == tid) = some P)
    (hPgame : P.game_username = some oldU)
    (hnoconf : ∀ q : Profile, db.profiles.find?
        (fun p => p.game_username_lower == some (pyLower newU)) = some q →
      q.telegram_id = tid)
    (hA : findUser db.users oldU = some dA)
    (hB : findUser db.users newU = some dB)
    (husers : db.users.Pairwise (fun a b => a.username ≠ b.username))
    (hoid : db.users.Pairwise (fun a b => a.oid ≠ b.oid))
    (hadon : dA.donazioni.Pairwise (fun p q => p.1 ≠ q.1))
    (hbdon : dB.donazioni.Pairwise (fun p q => p.1 ≠ q.1))
    (hAach : "" ∉ dA.achievements) (hBach : "" ∉ dB.achievements) :
    ∃ res db', link_player_profile db tid newU tgU fn none ver vc vm = .ok (res, db') ∧
      (∃ d', findUser db'.users newU = some d' ∧
        (∀ c, donGet d'.donazioni c = donGet dA.donazioni c + donGet dB.donazioni c) ∧
        d'.reward_points = dA.reward_points + dB.reward_points ∧
        (∀ a, a ∈ d'.achievements ↔ a ∈ dA.achievements ∨ a ∈ dB.achievements)) ∧
      findUser db'.users oldU = none ∧
      (db'.users.filter (fun x => x.username == newU)).length = 1 ∧
      db'.users.length + 1 = db.users.length := by
  have hAu : dA.username = oldU := by simpa using List.find?_some hA
  have hBu : dB.username = newU := by simpa using List.find?_some hB
  have hlink := link_reaches_apply db tid newU tgU fn vc vm ver hstrip hnew_ne hnoconf
  rw [hprof] at hlink
  rw [hlink]
  obtain ⟨pr, happ, husers'⟩ := link_apply_rename db tid newU (pyLower newU) tgU _ _
    none vc vm ver P oldU hPgame (fun h => hne h.symm) hold_ne
  have hmig := migrate_merge_eq db.users oldU newU dA dB hA hB hold_ne hnew_ne hne
  have husers2 := congrArg Prod.snd hmig
  rw [husers2] at husers'
  obtain ⟨m1, m2, m3, m4⟩ := merge_users_spec oldU newU dA dB
    (fun d =>
      { d with
        donazioni := merge_donation_maps [dA.donazioni, dB.donazioni],
        reward_points := dA.reward_points + dB.reward_points,
        achievements :=
          if sortStrings (((dA.achievements ++ dB.achievements).filter
              (fun a => a != "")).foldl achAdd []) ≠ [] then
            sortStrings (((dA.achievements ++ dB.achievements).filter
              (fun a => a != "")).foldl achAdd [])
          else d.achievements })
    (fun _ => rfl) (fun _ => rfl) hne hAu hBu db.users hA hB husers hoid
  refine ⟨pr.1, pr.2, by rw [happ], ?_, ?_, ?_, ?_⟩
  · refine ⟨_, by rw [husers']; exact m1, ?_, rfl, ?_⟩
    · intro c
      exact donGet_merge_donation_maps dA.donazioni dB.donazioni c hadon hbdon
    · intro a
      exact merged_ach_mem dA dB hAach hBach a
  · rw [husers']; exact m2
  · rw [husers']; exact m3
  · rw [husers']; exact m4

/-- Witness for merge_on_rename: records A (gold 100, points 5) and B (gold
10, points 2); linking chat id 1 (currently A) to B merges them into a B
record with gold 110 and points 7, and A is gone. -/
theorem merge_on_rename_witness :
    ∃ res db', link_player_profile merge_db 1 "B" none none none false none none =
        .ok (res, db') ∧
      (∃ d', findUser db'.users "B" = some d' ∧
        (∀ c, donGet d'.donazioni c =
          donGet record_A.donazioni c + donGet record_B.donazioni c) ∧
        d'.reward_points = record_A.reward_points + record_B.reward_points ∧
        (∀ a, a ∈ d'.achievements ↔ a ∈ record_A.achievements ∨ a ∈ record_B.achievements)) ∧
      findUser db'.users "A" = none ∧
      (db'.users.filter (fun x => x.username == "B")).length = 1 ∧
      db'.users.length + 1 = merge_db.users.length :=
  merge_on_rename merge_db 1 rename_profile "A" "B" record_A record_B none none none none
    false (by decide) (by decide) (by decide) (by decide) (by decide) (by decide)
    (by decide) (by decide) (by decide) (by decide) (by decide) (by decide) (by decide)
    (by decide) (by decide)

/-- C1 counterexample: a record whose source id is falsy is never marked, so
ingesting it twice doubles the balance instead of being idempotent. -/
theorem ingest_idempotence_counterexample :
    findUser (process_ledger emptyDB [noid_record, noid_record]).users "u" =
      some { oid := 0, username := "u", donazioni := [("Oro", 10)],
             reward_points := 0, achievements := [] } ∧
    findUser (process_ledger emptyDB [noid_record]).users "u" =
      some { oid := 0, username := "u", donazioni := [("Oro", 5)],
             reward_points := 0, achievements := [] } ∧
    process_ledger emptyDB [noid_record, noid_record] ≠
      process_ledger emptyDB [noid_record] := by decide

theorem findUser_updateFirst (l : List UserDoc) (u : String) (f : UserDoc → UserDoc)
    (hf : ∀ x, (f x).username = x.username) :
    findUser (updateFirst (fun x => x.username == u) f l) u = (findUser l u).map f := by
  induction l with
  | nil => rfl
  | cons y ys ih =>
    unfold findUser at ih ⊢
    by_cases hy : (y.username == u) = true
    · have hfy : ((f y).username == u) = true := by rw [hf y]; exact hy
      rw [updateFirst, if_pos hy]
      rw [List.find?_cons_of_pos (p := fun d : UserDoc => d.username == u) _ hfy,
        List.find?_cons_of_pos (p := fun d : UserDoc => d.username == u) _ hy]
      rfl
    · rw [updateFirst, if_neg hy]
      rw [List.find?_cons_of_neg (p := fun d : UserDoc => d.username == u) _ hy,
        List.find?_cons_of_neg (p := fun d : UserDoc => d.username == u) _ hy]
      exact ih

theorem findUser_append_of_none (l : List UserDoc) (u : String) (d : UserDoc)
    (h : findUser l u = none) :
    findUser (l ++ [d]) u = if d.username == u then some d else none := by
  induction l with
  | nil =>
    unfold findUser
    by_cases hd : (d.username == u) = true
    · rw [if_pos hd, List.nil_append,
        List.find?_cons_of_pos (p := fun d : UserDoc => d.username == u) _ hd]
    · rw [if_neg hd, List.nil_append,
        List.find?_cons_of_neg (p := fun d : UserDoc => d.username == u) _ hd]
      rfl
  | cons y ys ih =>
    by_cases hy : (y.username == u) = true
    · exfalso
      unfold findUser at h
      rw [List.find?_cons_of_pos (p := fun d : UserDoc => d.username == u) _ hy] at h
      exact Option.noConfusion h
    · unfold findUser at h ih ⊢
      rw [List.find?_cons_of_neg (p := fun d : UserDoc => d.username == u) _ hy] at h
      rw [List.cons_append, List.find?_cons_of_neg (p := fun d : UserDoc => d.username == u) _ hy]
      exact ih h

theorem holds_achievement_eq (db : DB) (u code : String) (d : UserDoc)
    (h : findUser db.users u = some d) :
    holds_achievement db u code = decide (code ∈ d.achievements) := by
  unfold holds_achievement; rw [h]

theorem holds_achievement_none (db : DB) (u code : String)
    (h : findUser db.users u = none) : holds_achievement db u code = false := by
  unfold holds_achievement; rw [h]

theorem ach_occurrences_eq (db : DB) (u code : String) (d : UserDoc)
    (h : findUser db.users u = some d) :
    ach_occurrences db u code = d.achievements.count code := by
  unfold ach_occurrences; rw [h]

theorem ach_occurrences_none (db : DB) (u code : String)
    (h : findUser db.users u = none) : ach_occurrences db u code = 0 := by
  unfold ach_occurrences; rw [h]

theorem filter_count_append (l : List RewardEvent) (q : RewardEvent → Bool)
    (e : RewardEvent) :
    ((l ++ [e]).filter q).length = (l.filter q).length + (if q e then 1 else 0) := by
  rw [List.filter_append, List.length_append]
  congr 1
  by_cases hq : q e = true
  · simp [List.filter_cons, hq]
  · simp [List.filter_cons, hq]

theorem append_achievement_found (db : DB) (u c : String) (d : UserDoc)
    (h0 : ¬(u = "" ∨ c = "")) (hf : findUser db.users u = some d)
    (hc : c ∉ d.achievements) :
    append_achievement db u c =
      (true, { db with
          users := updateFirst (fun x => x.username == u)
            (fun x => { x with achievements := achAdd x.achievements c }) db.users,
          rewards_history := db.rewards_history ++
            [{ username := u, event_type := "achievement", point_type := none,
               points := 0, amount := none, achievement_code := some c,
               metadata_achievement := none, running_total := d.reward_points }] }) := by
  simp [append_achievement, h0, hf, hc]

theorem append_achievement_notfound (db : DB) (u c : String)
    (h0 : ¬(u = "" ∨ c = "")) (hf : findUser db.users u = none) :
    append_achievement db u c =
      (true, { db with
          users := db.users ++
            [{ oid := db.next_oid, username := u, donazioni := [],
               reward_points := 0, achievements := [c] }],
          next_oid := db.next_oid + 1,
          rewards_history := db.rewards_history ++
            [{ username := u, event_type := "achievement", point_type := none,
               points := 0, amount := none, achievement_code := some c,
               metadata_achievement := none, running_total := 0 }] }) := by
  simp [append_achievement, h0, hf]

theorem append_achievement_false (db : DB) (u c : String)
    (h : (append_achievement db u c).1 = false) :
    (append_achievement db u c).2 = db := by
  by_cases h0 : u = "" ∨ c = ""
  · unfold append_achievement
    rw [if_pos h0]
  · cases hf : findUser db.users u with
    | none =>
      rw [append_achievement_notfound db u c h0 hf] at h
      simp at h
    | some d =>
      by_cases hc : c ∈ d.achievements
      · simp [append_achievement, h0, hf, hc]
      · rw [append_achievement_found db u c d h0 hf hc] at h
        simp at h

theorem append_achievement_true_self (db : DB) (u c : String)
    (h : (append_achievement db u c).1 = true) :
    holds_achievement db u c = false ∧
    holds_achievement (append_achievement db u c).2 u c = true ∧
    ach_occurrences db u c = 0 ∧
    ach_occurrences (append_achievement db u c).2 u c = 1 ∧
    ach_event_count (append_achievement db u c).2 u c = ach_event_count db u c + 1 ∧
    bonus_event_count (append_achievement db u c).2 u c = bonus_event_count db u c := by
  by_cases h0 : u = "" ∨ c = ""
  · exfalso
    unfold append_achievement at h
    rw [if_pos h0] at h
    simp at h
  · cases hf : findUser db.users u with
    | some d =>
      by_cases hc : c ∈ d.achievements
      · exfalso
        have hdb : append_achievement db u c = (false, db) := by
          simp [append_achievement, h0, hf, hc]
        rw [hdb] at h
        simp at h
      · rw [append_achievement_found db u c d h0 hf hc]
        dsimp only
        have husers :
            findUser (updateFirst (fun x => x.username == u)
              (fun x => { x with achievements := achAdd x.achievements c }) db.users) u =
            some { d with achievements := achAdd d.achievements c } := by
          rw [findUser_updateFirst db.users u
            (fun x => { x with achievements := achAdd x.achievements c }) (fun x => rfl), hf]
          rfl
        refine ⟨?_, ?_, ?_, ?_, ?_, ?_⟩
        · rw [holds_achievement_eq db u c d hf]
          simp [hc]
        · rw [holds_achievement_eq _ u c _ husers]
          simp [mem_achAdd]
        · rw [ach_occurrences_eq db u c d hf]
          exact List.count_eq_zero.mpr hc
        · rw [ach_occurrences_eq _ u c _ husers]
          unfold achAdd
          rw [if_neg hc, List.count_append, List.count_eq_zero.mpr hc]
          simp
        · simp [ach_event_count, filter_count_append]
        · simp [bonus_event_count, filter_count_append]
    | none =>
      rw [append_achievement_notfound db u c h0 hf]
      dsimp only
      have husers :
          findUser (db.users ++
              [{ oid := db.next_oid, username := u, donazioni := [],
                 reward_points := 0, achievements := [c] }]) u =
          some { oid := db.next_oid, username := u, donazioni := [],
                 reward_points := 0, achievements := [c] } := by
        rw [findUser_append_of_none db.users u _ hf]
        simp
      refine ⟨?_, ?_, ?_, ?_, ?_, ?_⟩
      · exact holds_achievement_none db u c hf
      · rw [holds_achievement_eq _ u c _ husers]
        simp
      · exact ach_occurrences_none db u c hf
      · rw [ach_occurrences_eq _ u c _ husers]
        simp
      · simp [ach_event_count, filter_count_append]
      · simp [bonus_event_count, filter_count_append]

theorem append_achievement_other (db : DB) (u c code : String) (hcc : code ≠ c) :
    holds_achievement (append_achievement db u c).2 u code = holds_achievement db u code ∧
    ach_occurrences (append_achievement db u c).2 u code = ach_occurrences db u code ∧
    ach_event_count (append_achievement db u c).2 u code = ach_event_count db u code ∧
    bonus_event_count (append_achievement db u c).2 u code = bonus_event_count db u code := by
  by_cases h0 : u = "" ∨ c = ""
  · have hdb : append_achievement db u c = (false, db) := by
      unfold append_achievement
      rw [if_pos h0]
    rw [hdb]
    exact ⟨rfl, rfl, rfl, rfl⟩
  · have hsc : ((some c : Option String) == some code) = false := by
      simp [Ne.symm hcc]
    cases hf : findUser db.users u with
    | none =>
      rw [append_achievement_notfound db u c h0 hf]
      dsimp only
      have husers :
          findUser (db.users ++
              [{ oid := db.next_oid, username := u, donazioni := [],
                 reward_points := 0, achievements := [c] }]) u =
          some { oid := db.next_oid, username := u, donazioni := [],
                 reward_points := 0, achievements := [c] } := by
        rw [findUser_append_of_none db.users u _ hf]
        simp
      refine ⟨?_, ?_, ?_, ?_⟩
      · rw [holds_achievement_eq _ u code _ husers, holds_achievement_none db u code hf]
        simp [hcc]
      · rw [ach_occurrences_eq _ u code _ husers, ach_occurrences_none db u code hf]
        simp [hcc]
      · simp [ach_event_count, filter_count_append, hsc]
      · simp [bonus_event_count, filter_count_append]
    | some d =>
      by_cases hc : c ∈ d.achievements
      · have hdb : append_achievement db u c = (false, db) := by
          simp [append_achievement, h0, hf, hc]
        rw [hdb]
        exact ⟨rfl, rfl, rfl, rfl⟩
      · rw [append_achievement_found db u c d h0 hf hc]
        dsimp only
        have husers :
            findUser (updateFirst (fun x => x.username == u)
              (fun x => { x with achievements := achAdd x.achievements c }) db.users) u =
            some { d with achievements := achAdd d.achievements c } := by
          rw [findUser_updateFirst db.users u
            (fun x => { x with achievements := achAdd x.achievements c }) (fun x => rfl), hf]
          rfl
        refine ⟨?_, ?_, ?_, ?_⟩
        · rw [holds_achievement_eq _ u code _ husers, holds_achievement_eq db u code d hf]
          by_cases hm : code ∈ d.achievements <;> simp [mem_achAdd, hcc, hm]
        · rw [ach_occurrences_eq _ u code _ husers, ach_occurrences_eq db u code d hf]
          unfold achAdd
          rw [if_neg hc, List.count_append]
          simp [hcc]
        · simp [ach_event_count, filter_count_append, hsc]
        · simp [bonus_event_count, filter_count_append]

theorem increment_points_found (db : DB) (u : String) (pts : Int) (t : String)
    (a : Option Int) (m : Option String) (d : UserDoc)
    (h0 : ¬(u = "" ∨ pts = 0)) (hf : findUser db.users u = some d) :
    increment_points db u pts t a m =
      ({ db with
          users := updateFirst (fun x => x.username == u)
            (fun x => { x with reward_points := x.reward_points + pts }) db.users,
          rewards_history := db.rewards_history ++
            [{ username := u, event_type := "points", point_type := some t,
               points := pts, amount := a, achievement_code := none,
               metadata_achievement := m, running_total := d.reward_points + pts }] },
        some (d.reward_points + pts)) := by
  simp [increment_points, h0, hf]

theorem increment_points_notfound (db : DB) (u : String) (pts : Int) (t : String)
    (a : Option Int) (m : Option String)
    (h0 : ¬(u = "" ∨ pts = 0)) (hf : findUser db.users u = none) :
    increment_points db u pts t a m =
      ({ db with
          users := db.users ++
            [{ oid := db.next_oid, username := u, donazioni := [],
               reward_points := pts, achievements := [] }],
          next_oid := db.next_oid + 1,
          rewards_history := db.rewards_history ++
            [{ username := u, event_type := "points", point_type := some t,
               points := pts, amount := a, achievement_code := none,
               metadata_achievement := m, running_total := pts }] },
        some pts) := by
  simp [increment_points, h0, hf]

theorem increment_points_obs (db : DB) (u : String) (pts : Int) (t : String)
    (a : Option Int) (m : Option String) (code : String) :
    holds_achievement (increment_points db u pts t a m).1 u code = holds_achievement db u code ∧
    ach_occurrences (increment_points db u pts t a m).1 u code = ach_occurrences db u code ∧
    ach_event_count (increment_points db u pts t a m).1 u code = ach_event_count db u code ∧
    bonus_event_count (increment_points db u pts t a m).1 u code ≤
      bonus_event_count db u code + 1 ∧
    (m ≠ some code →
      bonus_event_count (increment_points db u pts t a m).1 u code =
        bonus_event_count db u code) := by
  by_cases h0 : u = "" ∨ pts = 0
  · have hdb : increment_points db u pts t a m = (db, none) := by
      unfold increment_points
      rw [if_pos h0]
    rw [hdb]
    exact ⟨rfl, rfl, rfl, Nat.le_succ _, fun _ => rfl⟩
  · cases hf : findUser db.users u with
    | some d =>
      rw [increment_points_found db u pts t a m d h0 hf]
      dsimp only
      have husers :
          findUser (updateFirst (fun x => x.username == u)
            (fun x => { x with reward_points := x.reward_points + pts }) db.users) u =
          some { d with reward_points := d.reward_points + pts } := by
        rw [findUser_updateFirst db.users u
          (fun x => { x with reward_points := x.reward_points + pts }) (fun x => rfl), hf]
        rfl
      refine ⟨?_, ?_, ?_, ?_, ?_⟩
      · rw [holds_achievement_eq _ u code _ husers, holds_achievement_eq db u code d hf]
      · rw [ach_occurrences_eq _ u code _ husers, ach_occurrences_eq db u code d hf]
      · simp [ach_event_count, filter_count_append]
      · unfold bonus_event_count
        dsimp only
        rw [filter_count_append]
        exact Nat.add_le_add_left (by split <;> omega) _
      · intro hm
        have hmc : ((m : Option String) == some code) = false :=
          beq_eq_false_iff_ne.mpr hm
        simp [bonus_event_count, filter_count_append, hmc]
    | none =>
      rw [increment_points_notfound db u pts t a m h0 hf]
      dsimp only
      have husers :
          findUser (db.users ++
              [{ oid := db.next_oid, username := u, donazioni := [],
                 reward_points := pts, achievements := [] }]) u =
          some { oid := db.next_oid, username := u, donazioni := [],
                 reward_points := pts, achievements := [] } := by
        rw [findUser_append_of_none db.users u _ hf]
        simp
      refine ⟨?_, ?_, ?_, ?_, ?_⟩
      · rw [holds_achievement_eq _ u code _ husers, holds_achievement_none db u code hf]
        simp
      · rw [ach_occurrences_eq _ u code _ husers, ach_occurrences_none db u code hf]
        simp
      · simp [ach_event_count, filter_count_append]
      · unfold bonus_event_count
        dsimp only
        rw [filter_count_append]
        exact Nat.add_le_add_left (by split <;> omega) _
      · intro hm
        have hmc : ((m : Option String) == some code) = false :=
          beq_eq_false_iff_ne.mpr hm
        simp [bonus_event_count, filter_count_append, hmc]

theorem check_loop_obs (u code : String) (metrics : Metrics)
    (defs : List AchievementDef) :
    ∀ (db : DB) (current : List String),
      (holds_achievement db u code = true ↔ code ∈ current) →
      ((holds_achievement (check_loop u metrics defs db current).2 u code =
          holds_achievement db u code ∧
        ach_event_count (check_loop u metrics defs db current).2 u code =
          ach_event_count db u code ∧
        bonus_event_count (check_loop u metrics defs db current).2 u code =
          bonus_event_count db u code ∧
        ach_occurrences (check_loop u metrics defs db current).2 u code =
          ach_occurrences db u code) ∨
       (code ∉ current ∧ holds_achievement db u code = false ∧
        holds_achievement (check_loop u metrics defs db current).2 u code = true ∧
        ach_event_count (check_loop u metrics defs db current).2 u code =
          ach_event_count db u code + 1 ∧
        bonus_event_count (check_loop u metrics defs db current).2 u code ≤
          bonus_event_count db u code + 1 ∧
        ach_occurrences (check_loop u metrics defs db current).2 u code = 1)) := by
  induction defs with
  | nil =>
    intro db current hinv
    left
    exact ⟨rfl, rfl, rfl, rfl⟩
  | cons defn rest ih =>
    intro db current hinv
    by_cases hmem : defn.code ∈ current
    · have hstep : check_loop u metrics (defn :: rest) db current =
          check_loop u metrics rest db current := by
        simp only [check_loop, if_pos hmem]
      rw [hstep]
      exact ih db current hinv
    · by_cases hcrit : evaluate_criteria defn.criteria metrics = true
      · by_cases happ : (append_achievement db u defn.code).1 = true
        · by_cases hceq : defn.code = code
          · subst hceq
            obtain ⟨hof, hnt, hoc0, hoc1, hac, hbc⟩ :=
              append_achievement_true_self db u defn.code happ
            by_cases hb : defn.points_bonus ≠ 0
            · obtain ⟨i1, i2, i3, i4, i5⟩ :=
                increment_points_obs (append_achievement db u defn.code).2 u
                  defn.points_bonus "ACHIEVEMENT_BONUS" (some 0) (some defn.code) defn.code
              have hstep : (check_loop u metrics (defn :: rest) db current).2 =
                  (check_loop u metrics rest
                    (increment_points (append_achievement db u defn.code).2 u
                      defn.points_bonus "ACHIEVEMENT_BONUS" (some 0) (some defn.code)).1
                    (current ++ [defn.code])).2 := by
                simp only [check_loop, if_neg hmem, hcrit, eq_self_iff_true, if_true, happ,
                  if_pos hb]
              have hinv2 : holds_achievement
                  (increment_points (append_achievement db u defn.code).2 u
                    defn.points_bonus "ACHIEVEMENT_BONUS" (some 0) (some defn.code)).1
                  u defn.code = true ↔ defn.code ∈ current ++ [defn.code] := by
                rw [i1]
                exact iff_of_true hnt (by simp)
              rcases ih _ _ hinv2 with ⟨e1, e2, e3, e4⟩ | ⟨hni, _, _, _, _, _⟩
              · right
                refine ⟨hmem, hof, ?_, ?_, ?_, ?_⟩
                · rw [hstep, e1, i1]; exact hnt
                · rw [hstep, e2, i3]; exact hac
                · rw [hstep, e3]
                  exact le_trans i4 (by rw [hbc])
                · rw [hstep, e4, i2]; exact hoc1
              · exact absurd (by simp) hni
            · have hstep : (check_loop u metrics (defn :: rest) db current).2 =
                  (check_loop u metrics rest (append_achievement db u defn.code).2
                    (current ++ [defn.code])).2 := by
                simp only [check_loop, if_neg hmem, hcrit, eq_self_iff_true, if_true, happ,
                  if_neg hb]
              have hinv2 : holds_achievement (append_achievement db u defn.code).2
                  u defn.code = true ↔ defn.code ∈ current ++ [defn.code] :=
                iff_of_true hnt (by simp)
              rcases ih _ _ hinv2 with ⟨e1, e2, e3, e4⟩ | ⟨hni, _, _, _, _, _⟩
              · right
                refine ⟨hmem, hof, ?_, ?_, ?_, ?_⟩
                · rw [hstep, e1]; exact hnt
                · rw [hstep, e2]; exact hac
                · rw [hstep, e3, hbc]; exact Nat.le_succ _
                · rw [hstep, e4]; exact hoc1
              · exact absurd (by simp) hni
          · have hccc : code ≠ defn.code := fun he => hceq he.symm
            obtain ⟨o1, o2, o3, o4⟩ :=
              append_achievement_other db u defn.code code hccc
            by_cases hb : defn.points_bonus ≠ 0
            · obtain ⟨i1, i2, i3, i4, i5⟩ :=
                increment_points_obs (append_achievement db u defn.code).2 u
                  defn.points_bonus "ACHIEVEMENT_BONUS" (some 0) (some defn.code) code
              have i5' := i5 (fun he => hceq (Option.some.inj he))
              have hstep : (check_loop u metrics (defn :: rest) db current).2 =
                  (check_loop u metrics rest
                    (increment_points (append_achievement db u defn.code).2 u
                      defn.points_bonus "ACHIEVEMENT_BONUS" (some 0) (some defn.code)).1
                    (current ++ [defn.code])).2 := by
                simp only [check_loop, if_neg hmem, hcrit, eq_self_iff_true, if_true, happ,
                  if_pos hb]
              have hinv2 : holds_achievement
                  (increment_points (append_achievement db u defn.code).2 u
                    defn.points_bonus "ACHIEVEMENT_BONUS" (some 0) (some defn.code)).1
                  u code = true ↔ code ∈ current ++ [defn.code] := by
                rw [i1, o1, hinv]
                simp [hccc]
              rcases ih _ _ hinv2 with ⟨e1, e2, e3, e4⟩ | ⟨hni, h2, h3, h4, h5, h6⟩
              · left
                refine ⟨?_, ?_, ?_, ?_⟩
                · rw [hstep, e1, i1, o1]
                · rw [hstep, e2, i3, o3]
                · rw [hstep, e3, i5', o4]
                · rw [hstep, e4, i2, o2]
              · right
                refine ⟨?_, ?_, ?_, ?_, ?_, ?_⟩
                · exact fun hin => hni (List.mem_append_left _ hin)
                · rw [i1, o1] at h2; exact h2
                · rw [hstep]; exact h3
                · rw [hstep, h4, i3, o3]
                · rw [hstep]
                  exact le_trans h5 (by rw [i5', o4])
                · rw [hstep]; exact h6
            · have hstep : (check_loop u metrics (defn :: rest) db current).2 =
                  (check_loop u metrics rest (append_achievement db u defn.code).2
                    (current ++ [defn.code])).2 := by
                simp only [check_loop, if_neg hmem, hcrit, eq_self_iff_true, if_true, happ,
                  if_neg hb]
              have hinv2 : holds_achievement (append_achievement db u defn.code).2
                  u code = true ↔ code ∈ current ++ [defn.code] := by
                rw [o1, hinv]
                simp [hccc]
              rcases ih _ _ hinv2 with ⟨e1, e2, e3, e4⟩ | ⟨hni, h2, h3, h4, h5, h6⟩
              · left
                refine ⟨?_, ?_, ?_, ?_⟩
                · rw [hstep, e1, o1]
                · rw [hstep, e2, o3]
                · rw [hstep, e3, o4]
                · rw [hstep, e4, o2]
              · right
                refine ⟨?_, ?_, ?_, ?_, ?_, ?_⟩
                · exact fun hin => hni (List.mem_append_left _ hin)
                · rw [o1] at h2; exact h2
                · rw [hstep]; exact h3
                · rw [hstep, h4, o3]
                · rw [hstep]
                  exact le_trans h5 (by rw [o4])
                · rw [hstep]; exact h6
        · have hdb : (append_achievement db u defn.code).2 = db :=
            append_achievement_false db u defn.code (by simpa using happ)
          have hstep : (check_loop u metrics (defn :: rest) db current).2 =
              (check_loop u metrics rest (append_achievement db u defn.code).2 current).2 := by
            simp only [check_loop, if_neg hmem, hcrit, eq_self_iff_true, if_true]
            rw [if_neg happ]
          rw [hstep, hdb]
          exact ih db current hinv
      · have hstep : check_loop u metrics (defn :: rest) db current =
            check_loop u metrics rest db current := by
          simp only [check_loop, if_neg hmem, if_neg hcrit]
        rw [hstep]
        exact ih db current hinv

theorem check_achievements_obs (db : DB) (u code : String) :
    (holds_achievement (check_achievements db u).2 u code = holds_achievement db u code ∧
     ach_event_count (check_achievements db u).2 u code = ach_event_count db u code ∧
     bonus_event_count (check_achievements db u).2 u code = bonus_event_count db u code ∧
     ach_occurrences (check_achievements db u).2 u code = ach_occurrences db u code) ∨
    (holds_achievement db u code = false ∧
     holds_achievement (check_achievements db u).2 u code = true ∧
     ach_event_count (check_achievements db u).2 u code = ach_event_count db u code + 1 ∧
     bonus_event_count (check_achievements db u).2 u code ≤ bonus_event_count db u code + 1 ∧
     ach_occurrences (check_achievements db u).2 u code = 1) := by
  by_cases hu : u = ""
  · have hdb : check_achievements db u = ([], db) := by
      unfold check_achievements
      rw [if_pos hu]
    rw [hdb]
    left
    exact ⟨rfl, rfl, rfl, rfl⟩
  · cases hf : findUser db.users u with
    | none =>
      have hdb : check_achievements db u = ([], db) := by
        unfold check_achievements
        rw [if_neg hu, hf]
      rw [hdb]
      left
      exact ⟨rfl, rfl, rfl, rfl⟩
    | some snapshot =>
      have hdb : check_achievements db u =
          check_loop u (build_metrics db u snapshot) ACHIEVEMENTS db snapshot.achievements := by
        unfold check_achievements
        rw [if_neg hu, hf]
      rw [hdb]
      have hinv : holds_achievement db u code = true ↔ code ∈ snapshot.achievements := by
        rw [holds_achievement_eq db u code snapshot hf]
        simp
      rcases check_loop_obs u code (build_metrics db u snapshot) ACHIEVEMENTS db
          snapshot.achievements hinv with ⟨e1, e2, e3, e4⟩ | ⟨_, h2, h3, h4, h5, h6⟩
      · left
        exact ⟨e1, e2, e3, e4⟩
      · right
        exact ⟨h2, h3, h4, h5, h6⟩

/-- C8: achievement idempotence: over any number of achievement-check runs
for a user, an already-held achievement code is never re-appended, re-logged
or re-granted (all its observables are frozen), and in general the unlock
history row for a code is written at most once, its fixed bonus is granted
at most once, and the code occurs at most once in the user's achievement
array (at most the starting multiplicity if it was already duplicated). -/
theorem achievement_idempotence (db : DB) (u code : String) (n : Nat) :
    (holds_achievement db u code = true →
       ach_event_count (iterate_checks u n db) u code = ach_event_count db u code ∧
       bonus_event_count (iterate_checks u n db) u code = bonus_event_count db u code ∧
       ach_occurrences (iterate_checks u n db) u code = ach_occurrences db u code ∧
       holds_achievement (iterate_checks u n db) u code = true) ∧
    ach_event_count (iterate_checks u n db) u code ≤ ach_event_count db u code + 1 ∧
    bonus_event_count (iterate_checks u n db) u code ≤ bonus_event_count db u code + 1 ∧
    ach_occurrences (iterate_checks u n db) u code ≤ max (ach_occurrences db u code) 1 := by
  induction n generalizing db with
  | zero =>
    exact ⟨fun h => ⟨rfl, rfl, rfl, h⟩, Nat.le_succ _, Nat.le_succ _, le_max_left _ _⟩
  | succ n ihn =>
    have hstep : iterate_checks u (n + 1) db =
        iterate_checks u n (check_achievements db u).2 := rfl
    rw [hstep]
    obtain ⟨ihp, ihC, ihB, ihO⟩ := ihn (check_achievements db u).2
    rcases check_achievements_obs db u code with ⟨e1, e2, e3, e4⟩ | ⟨hf, ht, hC, hB, hO⟩
    · refine ⟨?_, ?_, ?_, ?_⟩
      · intro h
        have h' : holds_achievement (check_achievements db u).2 u code = true := by
          rw [e1]; exact h
        obtain ⟨a, b, c, d⟩ := ihp h'
        exact ⟨by rw [a, e2], by rw [b, e3], by rw [c, e4], d⟩
      · rw [e2] at ihC; exact ihC
      · rw [e3] at ihB; exact ihB
      · rw [e4] at ihO; exact ihO
    · obtain ⟨a, b, c, d⟩ := ihp ht
      refine ⟨?_, ?_, ?_, ?_⟩
      · intro h
        rw [hf] at h
        exact absurd h (by simp)
      · rw [a, hC]
      · rw [b]; exact hB
      · rw [c, hO]; exact le_max_right _ _

theorem achievement_idempotence_witness :
    holds_achievement held_achievement_db "u" "FIRST_DONATION" = true ∧
    (ach_event_count (iterate_checks "u" 2 held_achievement_db) "u" "FIRST_DONATION" =
       ach_event_count held_achievement_db "u" "FIRST_DONATION" ∧
     bonus_event_count (iterate_checks "u" 2 held_achievement_db) "u" "FIRST_DONATION" =
       bonus_event_count held_achievement_db "u" "FIRST_DONATION" ∧
     ach_occurrences (iterate_checks "u" 2 held_achievement_db) "u" "FIRST_DONATION" =
       ach_occurrences held_achievement_db "u" "FIRST_DONATION" ∧
     holds_achievement (iterate_checks "u" 2 held_achievement_db) "u" "FIRST_DONATION" =
       true) :=
  ⟨by decide,
    (achievement_idempotence held_achievement_db "u" "FIRST_DONATION" 2).1 (by decide)⟩

end WWClan
